import Mathlib

/-!
Shallow embedding of the capture-the-flag game server in
`Source/server.py` (repository CEG4188_Project_Group1), and proofs of the
specification's claims about it.

Players are kept as a list in connection (dict-insertion) order; flags are
the fixed pair created by `_init_flags__`; positions are modelled as
rationals (the Python floats involved are all exactly representable).
The probabilistic draw of `attempt_steal` (`random.random()`) is passed in
as an explicit parameter.
-/

namespace CTF

/-- The two teams, the keys of the `flags` and `scores` dictionaries. -/
inductive Team where
  | red
  | blue
deriving DecidableEq, Repr, Fintype

/-- The team whose flag a player of team `t` is allowed to pick up. -/
def Team.opp : Team → Team
  | .red => .blue
  | .blue => .red

/-- `Player` dataclass of `server.py` (the socket handle is dropped:
it never influences game-state decisions). -/
structure Player where
  pid : Nat
  x : ℚ
  y : ℚ
  team : Team
  red : Bool
  blue : Bool
deriving DecidableEq, Repr

/-- `Flag` dataclass of `server.py` (the mutex is dropped: operations are
modelled as atomic, which is what the per-flag lock provides). -/
structure Flag where
  team : Team
  spawn_x : ℚ
  spawn_y : ℚ
  x : ℚ
  y : ℚ
  carrier : Option Nat
deriving DecidableEq, Repr

/-- `Game_State` dataclass: players in insertion order, the two flags
created by `_init_flags__`, and the two score counters. -/
structure GameState where
  players : List Player
  redFlag : Flag
  blueFlag : Flag
  redScore : Nat
  blueScore : Nat
deriving DecidableEq, Repr

/-- Server constants from the top of `server.py`. -/
def PICKUP_RADIUS : ℚ := 30

def STEAL_CHANCE : ℚ := 35 / 100

def BASE_RADIUS : ℚ := 50

def MAP_WIDTH : ℚ := 1000

def MAP_HEIGHT : ℚ := 600

def SCORE_TO_WIN : Nat := 5

/-- Movement step per applied direction (`speed = 6.0` in `handle_inputs`). -/
def SPEED : ℚ := 6

/-- `self.game.players.get(pid)`: dictionary lookup by player id. -/
def getPlayer (s : GameState) (pid : Nat) : Option Player :=
  s.players.find? (fun p => p.pid == pid)

/-- In-place mutation of the player object with id `pid` (Python mutates
the object found by `players.get(pid)`; ids are dictionary keys). -/
def setPlayer (s : GameState) (pid : Nat) (p' : Player) : GameState :=
  { s with players := s.players.map (fun p => if p.pid == pid then p' else p) }

/-- `self.game.flags[t]`. -/
def flagOf (s : GameState) : Team → Flag
  | .red => s.redFlag
  | .blue => s.blueFlag

/-- In-place mutation of the flag stored under key `t`. -/
def setFlag (s : GameState) (t : Team) (f : Flag) : GameState :=
  match t with
  | .red => { s with redFlag := f }
  | .blue => { s with blueFlag := f }

/-- `self.game.scores[t]`. -/
def scoreOf (s : GameState) : Team → Nat
  | .red => s.redScore
  | .blue => s.blueScore

/-- `self.game.scores[t] += n`. -/
def addScore (s : GameState) (t : Team) (n : Nat) : GameState :=
  match t with
  | .red => { s with redScore := s.redScore + n }
  | .blue => { s with blueScore := s.blueScore + n }

/-- The carried-flag indicator of player `p` for the flag of team `t`
(`player.red` / `player.blue`). -/
def indicator (p : Player) : Team → Bool
  | .red => p.red
  | .blue => p.blue

/-- One iteration of the flag loop of `attempt_pickup`, for the flag under
key `ft`: skip the requester's own flag; under the flag's lock require the
flag uncarried and the requester within `PICKUP_RADIUS` (inclusive); on
success clear both of the requester's indicators, set the flag's carrier to
the requester, and set the indicator matching the flag's team. -/
def tryPickupFlag (pid : Nat) (ft : Team) (s : GameState) : GameState :=
  match getPlayer s pid with
  | none => s
  | some player =>
    let flag := flagOf s ft
    if flag.team = player.team then s
    else if flag.carrier.isSome then s
    else
      let dx := player.x - flag.x
      let dy := player.y - flag.y
      if dx * dx + dy * dy ≤ PICKUP_RADIUS * PICKUP_RADIUS then
        let p0 : Player := { player with red := false, blue := false }
        let p1 : Player :=
          if flag.team = Team.red then { p0 with red := true }
          else { p0 with blue := true }
        setFlag (setPlayer s pid p1) ft { flag with carrier := some pid }
      else s

/-- `attempt_pickup`: return if the requester is unknown, else run the flag
loop over the flags dictionary in insertion order (red, then blue). -/
def attempt_pickup (pid : Nat) (s : GameState) : GameState :=
  match getPlayer s pid with
  | none => s
  | some _ => tryPickupFlag pid Team.blue (tryPickupFlag pid Team.red s)

/-- `attempt_steal`: under the named flag's lock, require both players to
exist, the defender's indicator for the named flag to be set, the teams to
differ, and the probability draw to be below `STEAL_CHANCE`; on success
clear both of the defender's indicators, overwrite the attacker's
indicators with exactly the named flag's, and move the flag (carrier and
position) to the attacker.  There is no distance check in the source. -/
def attempt_steal (attacker_pid defender_pid : Nat) (flag_team : Team)
    (draw : ℚ) (s : GameState) : GameState :=
  let flag := flagOf s flag_team
  match getPlayer s attacker_pid, getPlayer s defender_pid with
  | some attacker, some defender =>
    if (flag_team = Team.red ∧ defender.red = false) ∨
       (flag_team = Team.blue ∧ defender.blue = false) then s
    else if attacker.team = defender.team then s
    else if STEAL_CHANCE ≤ draw then s
    else
      let defender' : Player := { defender with red := false, blue := false }
      let attacker' : Player :=
        { attacker with
            red := decide (flag_team = Team.red)
            blue := decide (flag_team = Team.blue) }
      let s1 := setPlayer s defender_pid defender'
      let s2 := setPlayer s1 attacker_pid attacker'
      setFlag s2 flag_team
        { flag with carrier := some attacker.pid, x := attacker.x, y := attacker.y }
  | _, _ => s

/-- The four boolean directional flags of an `input` message. -/
structure MoveKeys where
  up : Bool
  down : Bool
  left : Bool
  right : Bool
deriving DecidableEq, Repr

/-- `max(0, min(hi, v))`, the bounds throttle of `handle_inputs`. -/
def clamp (hi v : ℚ) : ℚ := max 0 (min hi v)

/-- The unclamped movement of `handle_inputs`: each axis independently,
opposite directions cancelling, `SPEED` per applied direction. -/
def stepMove (k : MoveKeys) (x y : ℚ) : ℚ × ℚ :=
  let y1 := if k.up = true ∧ k.down = false then y - SPEED else y
  let y2 := if k.down = true ∧ k.up = false then y1 + SPEED else y1
  let x1 := if k.left = true ∧ k.right = false then x - SPEED else x
  let x2 := if k.right = true ∧ k.left = false then x1 + SPEED else x1
  (x2, y2)

/-- Position part of `handle_inputs` for one `input` message: apply the
movement, then clamp both coordinates to the map bounds. -/
def handle_input (k : MoveKeys) (x y : ℚ) : ℚ × ℚ :=
  let m := stepMove k x y
  (clamp MAP_WIDTH m.1, clamp MAP_HEIGHT m.2)

/-- `handle_inputs` lifted to the game state: move the player named `pid`
(if connected) by one `input` message. -/
def handle_inputs (pid : Nat) (k : MoveKeys) (s : GameState) : GameState :=
  match getPlayer s pid with
  | none => s
  | some player =>
    let m := handle_input k player.x player.y
    setPlayer s pid { player with x := m.1, y := m.2 }

/-- A sequence of movement intents applied to a position, one
`handle_inputs` application per message. -/
def applyInputs (pos : ℚ × ℚ) (ks : List MoveKeys) : ℚ × ℚ :=
  ks.foldl (fun pos k => handle_input k pos.1 pos.2) pos

/-- One iteration of `update_flags` on one flag: a carried flag tracks its
carrier's position; a flag whose carrier has vanished is returned to spawn
with its carrier cleared. -/
def updateFlag (s : GameState) (f : Flag) : Flag :=
  match f.carrier with
  | none => f
  | some cid =>
    match getPlayer s cid with
    | none => { f with carrier := none, x := f.spawn_x, y := f.spawn_y }
    | some c => { f with x := c.x, y := c.y }

/-- `update_flags`: run the per-flag update on both flags. -/
def update_flags (s : GameState) : GameState :=
  { s with redFlag := updateFlag s s.redFlag, blueFlag := updateFlag s s.blueFlag }

/-- `len(carried_flags)` in `check_score`: the number of opposing flags the
player's indicators claim. -/
def carriedCount (p : Player) : Nat :=
  (if p.red = true ∧ p.team ≠ Team.red then 1 else 0) +
    (if p.blue = true ∧ p.team ≠ Team.blue then 1 else 0)

/-- The scoring test of `check_score` for one player: carrying at least one
opposing flag, and within `BASE_RADIUS` (inclusive) of the spawn point of
the player's own team's flag. -/
def eligible (s : GameState) (p : Player) : Bool :=
  let base := flagOf s p.team
  let dx := p.x - base.spawn_x
  let dy := p.y - base.spawn_y
  decide (0 < carriedCount p) &&
    decide (dx * dx + dy * dy ≤ BASE_RADIUS * BASE_RADIUS)

/-- The flag reset of `check_score` and `remove_player`: carrier cleared,
position back to spawn. -/
def resetFlag (f : Flag) : Flag :=
  { f with carrier := none, x := f.spawn_x, y := f.spawn_y }

/-- The reset block of `check_score`: every flag reset, every player's
indicators cleared. -/
def resetAll (s : GameState) : GameState :=
  { s with
      redFlag := resetFlag s.redFlag
      blueFlag := resetFlag s.blueFlag
      players := s.players.map (fun p => { p with red := false, blue := false }) }

/-- Server state around the game state: the `self.running` flag and the
list of `over` broadcasts sent so far (each recorded by winning team). -/
structure ServerState where
  game : GameState
  running : Bool
  overMsgs : List Team
deriving DecidableEq, Repr

/-- The scoring block of `check_score` once a player passes the test:
increment the scorer's team's score by the carried count, reset all flags
and indicators, and if the new score reaches `SCORE_TO_WIN` broadcast the
`over` message and stop the loop. -/
def applyScore (st : ServerState) (p : Player) : ServerState :=
  let n := carriedCount p
  let g1 := addScore st.game p.team n
  let g2 := resetAll g1
  if SCORE_TO_WIN ≤ scoreOf g1 p.team then
    { game := g2, running := false, overMsgs := st.overMsgs ++ [p.team] }
  else
    { st with game := g2 }

/-- The player loop of `check_score`: players in insertion order, the first
one passing the test scores and the function returns. -/
def checkScoreAux (st : ServerState) : List Player → ServerState
  | [] => st
  | p :: rest =>
    if eligible st.game p then applyScore st p
    else checkScoreAux st rest

/-- `check_score`. -/
def check_score (st : ServerState) : ServerState :=
  checkScoreAux st st.game.players

/-- `remove_player`, game-state part: pop the player; if the popped player's
red indicator is set, reset the red flag; likewise for blue.  Popping an
unknown id resets nothing. -/
def remove_player (pid : Nat) (s : GameState) : GameState :=
  match getPlayer s pid with
  | none => s
  | some player =>
    let s1 := { s with players := s.players.filter (fun p => p.pid ≠ pid) }
    let s2 := if player.red then { s1 with redFlag := resetFlag s1.redFlag } else s1
    if player.blue then { s2 with blueFlag := resetFlag s2.blueFlag } else s2

/-- Structural facts guaranteed by the server outside the modelled
operations: player ids are dictionary keys (no duplicates), and
`_init_flags__` stores the red-labelled flag under key `red` and the
blue-labelled flag under key `blue`. -/
def WF (s : GameState) : Prop :=
  (s.players.map (fun p => p.pid)).Nodup ∧
    s.redFlag.team = Team.red ∧ s.blueFlag.team = Team.blue

/-- Carrier consistency for the flag of team `t`: if the flag names a
carrier, that carrier is a present player whose indicator for `t` is set;
and every present player whose indicator for `t` is set is named by the
flag's carrier field (hence no two players carry the same flag). -/
def flagConsistent (s : GameState) (t : Team) : Prop :=
  (∀ pid ∈ (flagOf s t).carrier,
      ∃ p ∈ s.players, p.pid = pid ∧ indicator p t = true) ∧
    ∀ p ∈ s.players, indicator p t = true → (flagOf s t).carrier = some p.pid

/-- The World-Model carrier-consistency invariant, over both flags. -/
def carrierConsistent (s : GameState) : Prop :=
  flagConsistent s Team.red ∧ flagConsistent s Team.blue

instance (s : GameState) : Decidable (WF s) := by
  unfold WF; infer_instance

instance (s : GameState) (t : Team) : Decidable (flagConsistent s t) := by
  unfold flagConsistent; infer_instance

instance (s : GameState) : Decidable (carrierConsistent s) := by
  unfold carrierConsistent; infer_instance

/-- Client → server message kinds. -/
inductive ClientMsg where
  | input (k : MoveKeys)
  | pickupMsg
  | stealMsg (target : Nat) (flagTeam : Team)
  | disconnect
deriving DecidableEq, Repr

/-- One newline-delimited line as seen by `client_listener`: either it
parses as a message, or `json.loads` raises on it. -/
inductive Frame where
  | valid (m : ClientMsg)
  | malformed
deriving DecidableEq, Repr

/-- Observable effect of the listener on one parsed line: pickup and steal
go straight to the arbiter; everything else is put on the intent queue. -/
inductive LEvent where
  | didPickup
  | didSteal (target : Nat) (flagTeam : Team)
  | queued (m : ClientMsg)
deriving DecidableEq, Repr

/-- Line-processing loop of `client_listener` over a batch of already
received lines.  A line that fails to parse raises out of the loop to the
outer handler, which enqueues a `disconnect` message and ends the listener
(second component `false`); the lines after it are never processed. -/
def processFrames : List Frame → List LEvent × Bool
  | [] => ([], true)
  | .valid m :: rest =>
    let e := match m with
      | .pickupMsg => LEvent.didPickup
      | .stealMsg t ft => LEvent.didSteal t ft
      | m => LEvent.queued m
    let r := processFrames rest
    (e :: r.1, r.2)
  | .malformed :: _ => ([LEvent.queued ClientMsg.disconnect], false)

/-- A world-model mutation reaching the server between two scoring
evaluations: a queued movement intent drained by `process_inputs`, an
arbiter request, or a connection removal. -/
inductive Ev where
  | move (pid : Nat) (k : MoveKeys)
  | pickupReq (pid : Nat)
  | stealReq (a d : Nat) (ft : Team) (draw : ℚ)
  | leave (pid : Nat)

/-- Apply one event to the game state. -/
def applyEv (g : GameState) : Ev → GameState
  | .move pid k => handle_inputs pid k g
  | .pickupReq pid => attempt_pickup pid g
  | .stealReq a d ft draw => attempt_steal a d ft draw g
  | .leave pid => remove_player pid g

/-- Apply a batch of events in order. -/
def applyEvs (g : GameState) (evs : List Ev) : GameState :=
  evs.foldl applyEv g

/-- One iteration of `game_loop`, parameterised by the events landing in
that tick: if the server is still running, apply the events, update the
flags, and evaluate scoring; once `running` is false the loop body never
executes again. -/
def tick (evs : List Ev) (st : ServerState) : ServerState :=
  if st.running then
    check_score { st with game := update_flags (applyEvs st.game evs) }
  else st

/-- Run the game loop over a trace of per-tick event batches. -/
def runTicks (st : ServerState) : List (List Ev) → ServerState
  | [] => st
  | evs :: rest => runTicks (tick evs st) rest

/-- The `over` broadcast discipline: while the loop is running no `over`
message has been sent, and never more than one in total. -/
def GoodOver (st : ServerState) : Prop :=
  (st.running = true → st.overMsgs = []) ∧ st.overMsgs.length ≤ 1

instance (st : ServerState) : Decidable (GoodOver st) := by
  unfold GoodOver; infer_instance

/-- The state produced by the success branch of `attempt_pickup` for
requester `p` (looked up under id `pid`) and the flag under key `ft`. -/
def pickupSuccessState (s : GameState) (pid : Nat) (p : Player) (ft : Team) :
    GameState :=
  let flag := flagOf s ft
  let p0 : Player := { p with red := false, blue := false }
  let p1 : Player :=
    if flag.team = Team.red then { p0 with red := true }
    else { p0 with blue := true }
  setFlag (setPlayer s pid p1) ft { flag with carrier := some pid }

/-- The requester's indicator pair after a successful pickup of the flag
of team `ft`: exactly that flag's indicator set. -/
def pickedPlayer (p : Player) (ft : Team) : Player :=
  if ft = Team.red then { p with red := true, blue := false }
  else { p with red := false, blue := true }

/-- The state produced by the success branch of `attempt_steal`:
defender's indicators cleared, attacker's indicators overwritten with
exactly the named flag's, flag carrier and position moved to the
attacker. -/
def stealSuccessState (s : GameState) (attacker_pid defender_pid : Nat)
    (attacker defender : Player) (flag_team : Team) : GameState :=
  let flag := flagOf s flag_team
  let defender' : Player := { defender with red := false, blue := false }
  let attacker' : Player :=
    { attacker with
        red := decide (flag_team = Team.red)
        blue := decide (flag_team = Team.blue) }
  let s1 := setPlayer s defender_pid defender'
  let s2 := setPlayer s1 attacker_pid attacker'
  setFlag s2 flag_team
    { flag with carrier := some attacker.pid, x := attacker.x, y := attacker.y }

/-! ### Concrete states (map 1000 × 600, flags as placed by `_init_flags__`:
red at (50, 300), blue at (950, 300)) used to evaluate the theorems. -/

/-- A flag at its spawn position, uncarried. -/
def spawnFlag (t : Team) (sx sy : ℚ) : Flag :=
  { team := t, spawn_x := sx, spawn_y := sy, x := sx, y := sy, carrier := none }

def initRedFlag : Flag := spawnFlag Team.red 50 300

def initBlueFlag : Flag := spawnFlag Team.blue 950 300

/-- Red player 1 standing exactly `PICKUP_RADIUS` away from the blue flag's
position (squared distance exactly 900). -/
def pBoundary : Player :=
  { pid := 1, x := 920, y := 300, team := Team.red, red := false, blue := false }

def stBoundary : GameState :=
  { players := [pBoundary], redFlag := initRedFlag, blueFlag := initBlueFlag,
    redScore := 0, blueScore := 0 }

/-- Red player 1 who is carrying the red flag (obtained by stealing it
back from a blue carrier) while standing on the blue flag's spawn. -/
def pOwnCarry : Player :=
  { pid := 1, x := 950, y := 300, team := Team.red, red := true, blue := false }

def stOwnCarry : GameState :=
  { players := [pOwnCarry],
    redFlag := { initRedFlag with carrier := some 1, x := 950, y := 300 },
    blueFlag := initBlueFlag, redScore := 0, blueScore := 0 }

/-- Attacker (red, at the origin) and defender (blue, at the far map
corner, carrying the red flag): squared distance 1360000. -/
def pAtkFar : Player :=
  { pid := 1, x := 0, y := 0, team := Team.red, red := false, blue := false }

def pDefFar : Player :=
  { pid := 2, x := 1000, y := 600, team := Team.blue, red := true, blue := false }

def stStealFar : GameState :=
  { players := [pAtkFar, pDefFar],
    redFlag := { initRedFlag with carrier := some 2, x := 1000, y := 600 },
    blueFlag := initBlueFlag, redScore := 0, blueScore := 0 }

/-- Red player 1 on their own flag's spawn, carrying the blue flag. -/
def pScorer : Player :=
  { pid := 1, x := 50, y := 300, team := Team.red, red := false, blue := true }

def stScore : GameState :=
  { players := [pScorer], redFlag := initRedFlag,
    blueFlag := { initBlueFlag with carrier := some 1, x := 50, y := 300 },
    redScore := 0, blueScore := 0 }

def svScore : ServerState :=
  { game := stScore, running := true, overMsgs := [] }

/-- `stScore` with red already one point from the win threshold. -/
def stNearWin : GameState :=
  { stScore with redScore := 4 }

def svNearWin : ServerState :=
  { game := stNearWin, running := true, overMsgs := [] }

/-- A server whose loop has already stopped after announcing red. -/
def svStopped : ServerState :=
  { game := stScore, running := false, overMsgs := [Team.red] }

/-! ### Basic lemmas about the state accessors -/

theorem flagOf_setPlayer (s : GameState) (pid : Nat) (p' : Player) (t : Team) :
    flagOf (setPlayer s pid p') t = flagOf s t := by
  cases t <;> rfl

theorem getPlayer_setFlag (s : GameState) (t : Team) (f : Flag) (pid : Nat) :
    getPlayer (setFlag s t f) pid = getPlayer s pid := by
  cases t <;> rfl

theorem players_setFlag (s : GameState) (t : Team) (f : Flag) :
    (setFlag s t f).players = s.players := by
  cases t <;> rfl

theorem flagOf_setFlag_same (s : GameState) (t : Team) (f : Flag) :
    flagOf (setFlag s t f) t = f := by
  cases t <;> rfl

theorem flagOf_setFlag_ne (s : GameState) (t u : Team) (f : Flag) (h : u ≠ t) :
    flagOf (setFlag s t f) u = flagOf s u := by
  cases t <;> cases u <;> first | rfl | simp at h

theorem scoreOf_setPlayer (s : GameState) (pid : Nat) (p' : Player) (t : Team) :
    scoreOf (setPlayer s pid p') t = scoreOf s t := by
  cases t <;> rfl

theorem scoreOf_setFlag (s : GameState) (t u : Team) (f : Flag) :
    scoreOf (setFlag s t f) u = scoreOf s u := by
  cases t <;> cases u <;> rfl

theorem Team.opp_ne (t : Team) : t.opp ≠ t := by
  cases t <;> simp [Team.opp]

theorem Team.opp_opp (t : Team) : t.opp.opp = t := by
  cases t <;> rfl

theorem flagOf_team (s : GameState) (hWF : WF s) (t : Team) :
    (flagOf s t).team = t := by
  cases t
  · exact hWF.2.1
  · exact hWF.2.2

theorem getPlayer_pid (s : GameState) (pid : Nat) (p : Player)
    (h : getPlayer s pid = some p) : p.pid = pid := by
  have := List.find?_some h
  simpa using this

theorem getPlayer_mem (s : GameState) (pid : Nat) (p : Player)
    (h : getPlayer s pid = some p) : p ∈ s.players :=
  List.mem_of_find?_eq_some h

theorem find?_pid_map_set_ne (l : List Player) (pid : Nat) (p' : Player)
    (q : Nat) (hp : p'.pid = pid) (hq : q ≠ pid) :
    (l.map fun p => if p.pid == pid then p' else p).find? (fun p => p.pid == q) =
      l.find? (fun p => p.pid == q) := by
  induction l with
  | nil => rfl
  | cons a l ih =>
    by_cases h : a.pid = pid
    · have hhead : (if (a.pid == pid) = true then p' else a) = p' := by simp [h]
      have e1 : ¬ ((fun p : Player => p.pid == q) p') = true := by
        simp [hp, Ne.symm hq]
      have e2 : ¬ ((fun p : Player => p.pid == q) a) = true := by
        simp [h, Ne.symm hq]
      rw [List.map_cons, hhead,
        List.find?_cons_of_neg (p := fun p => p.pid == q) (a := p') _ e1,
        List.find?_cons_of_neg (p := fun p => p.pid == q) (a := a) _ e2]
      exact ih
    · have hhead : (if (a.pid == pid) = true then p' else a) = a := by simp [h]
      by_cases h3 : a.pid = q
      · have e3 : ((fun p : Player => p.pid == q) a) = true := by simp [h3]
        rw [List.map_cons, hhead,
          List.find?_cons_of_pos (p := fun p => p.pid == q) (a := a) _ e3,
          List.find?_cons_of_pos (p := fun p => p.pid == q) (a := a) _ e3]
      · have e3 : ¬ ((fun p : Player => p.pid == q) a) = true := by simp [h3]
        rw [List.map_cons, hhead,
          List.find?_cons_of_neg (p := fun p => p.pid == q) (a := a) _ e3,
          List.find?_cons_of_neg (p := fun p => p.pid == q) (a := a) _ e3]
        exact ih

theorem find?_pid_map_set_same (l : List Player) (pid : Nat) (p' : Player)
    (hp : p'.pid = pid) :
    (l.map fun p => if p.pid == pid then p' else p).find? (fun p => p.pid == pid) =
      (l.find? (fun p => p.pid == pid)).map (fun _ => p') := by
  induction l with
  | nil => rfl
  | cons a l ih =>
    by_cases h : a.pid = pid
    · have hhead : (if (a.pid == pid) = true then p' else a) = p' := by simp [h]
      have e1 : ((fun p : Player => p.pid == pid) p') = true := by simp [hp]
      have e2 : ((fun p : Player => p.pid == pid) a) = true := by simp [h]
      rw [List.map_cons, hhead,
        List.find?_cons_of_pos (p := fun p => p.pid == pid) (a := p') _ e1,
        List.find?_cons_of_pos (p := fun p => p.pid == pid) (a := a) _ e2]
      rfl
    · have hhead : (if (a.pid == pid) = true then p' else a) = a := by simp [h]
      have e2 : ¬ ((fun p : Player => p.pid == pid) a) = true := by simp [h]
      rw [List.map_cons, hhead,
        List.find?_cons_of_neg (p := fun p => p.pid == pid) (a := a) _ e2,
        List.find?_cons_of_neg (p := fun p => p.pid == pid) (a := a) _ e2]
      exact ih

theorem getPlayer_setPlayer_same (s : GameState) (pid : Nat) (p' : Player)
    (hp : p'.pid = pid) :
    getPlayer (setPlayer s pid p') pid = (getPlayer s pid).map (fun _ => p') :=
  find?_pid_map_set_same s.players pid p' hp

theorem getPlayer_setPlayer_ne (s : GameState) (pid : Nat) (p' : Player)
    (q : Nat) (hp : p'.pid = pid) (hq : q ≠ pid) :
    getPlayer (setPlayer s pid p') q = getPlayer s q :=
  find?_pid_map_set_ne s.players pid p' q hp hq

/-! ### Characterisation of `attempt_pickup` -/

theorem tryPickupFlag_eq_of_team (pid : Nat) (ft : Team) (s : GameState)
    (p : Player) (hp : getPlayer s pid = some p)
    (h : (flagOf s ft).team = p.team) :
    tryPickupFlag pid ft s = s := by
  unfold tryPickupFlag
  rw [hp]
  simp [h]

theorem tryPickupFlag_eq_of_carried (pid : Nat) (ft : Team) (s : GameState)
    (p : Player) (hp : getPlayer s pid = some p)
    (h : (flagOf s ft).carrier.isSome = true) :
    tryPickupFlag pid ft s = s := by
  unfold tryPickupFlag
  rw [hp]
  by_cases h1 : (flagOf s ft).team = p.team <;> simp [h1, h]

theorem tryPickupFlag_eq_of_far (pid : Nat) (ft : Team) (s : GameState)
    (p : Player) (hp : getPlayer s pid = some p)
    (h : ¬ (p.x - (flagOf s ft).x) * (p.x - (flagOf s ft).x) +
        (p.y - (flagOf s ft).y) * (p.y - (flagOf s ft).y) ≤
        PICKUP_RADIUS * PICKUP_RADIUS) :
    tryPickupFlag pid ft s = s := by
  unfold tryPickupFlag
  rw [hp]
  by_cases h1 : (flagOf s ft).team = p.team
  · simp [h1]
  · by_cases h2 : (flagOf s ft).carrier.isSome <;> simp [h1, h2, h]

theorem tryPickupFlag_eq_of_success (pid : Nat) (ft : Team) (s : GameState)
    (p : Player) (hp : getPlayer s pid = some p)
    (h1 : (flagOf s ft).team ≠ p.team)
    (h2 : (flagOf s ft).carrier = none)
    (h3 : (p.x - (flagOf s ft).x) * (p.x - (flagOf s ft).x) +
        (p.y - (flagOf s ft).y) * (p.y - (flagOf s ft).y) ≤
        PICKUP_RADIUS * PICKUP_RADIUS) :
    tryPickupFlag pid ft s = pickupSuccessState s pid p ft := by
  unfold tryPickupFlag
  rw [hp]
  simp [h1, h2, h3, pickupSuccessState]

/-- Case split for one iteration of the pickup loop: either it leaves the
state alone, or all success conditions held and it produced the success
state. -/
theorem tryPickupFlag_cases (pid : Nat) (ft : Team) (s : GameState) :
    tryPickupFlag pid ft s = s ∨
      ∃ p, getPlayer s pid = some p ∧ (flagOf s ft).team ≠ p.team ∧
        (flagOf s ft).carrier = none ∧
        (p.x - (flagOf s ft).x) * (p.x - (flagOf s ft).x) +
            (p.y - (flagOf s ft).y) * (p.y - (flagOf s ft).y) ≤
          PICKUP_RADIUS * PICKUP_RADIUS ∧
        tryPickupFlag pid ft s = pickupSuccessState s pid p ft := by
  cases hp : getPlayer s pid with
  | none => left; unfold tryPickupFlag; rw [hp]
  | some p =>
    by_cases h1 : (flagOf s ft).team = p.team
    · exact Or.inl (tryPickupFlag_eq_of_team pid ft s p hp h1)
    · by_cases h2 : (flagOf s ft).carrier.isSome
      · exact Or.inl (tryPickupFlag_eq_of_carried pid ft s p hp h2)
      · by_cases h3 : (p.x - (flagOf s ft).x) * (p.x - (flagOf s ft).x) +
            (p.y - (flagOf s ft).y) * (p.y - (flagOf s ft).y) ≤
            PICKUP_RADIUS * PICKUP_RADIUS
        · refine Or.inr ⟨p, rfl, h1, Option.not_isSome_iff_eq_none.mp h2, h3,
            tryPickupFlag_eq_of_success pid ft s p hp h1
              (Option.not_isSome_iff_eq_none.mp h2) h3⟩
        · exact Or.inl (tryPickupFlag_eq_of_far pid ft s p hp h3)

theorem flagOf_pickupSuccessState_ne (s : GameState) (pid : Nat) (p : Player)
    (ft u : Team) (h : u ≠ ft) :
    flagOf (pickupSuccessState s pid p ft) u = flagOf s u := by
  simp only [pickupSuccessState]
  rw [flagOf_setFlag_ne _ _ _ _ h, flagOf_setPlayer]

theorem pickupSuccessState_spec (s : GameState) (pid : Nat) (p : Player)
    (ft : Team) (hWF : WF s) (hp : getPlayer s pid = some p) :
    (flagOf (pickupSuccessState s pid p ft) ft).carrier = some pid ∧
      ∃ q, getPlayer (pickupSuccessState s pid p ft) pid = some q ∧
        indicator q ft = true ∧ indicator q ft.opp = false ∧ q.team = p.team := by
  have hpid := getPlayer_pid s pid p hp
  have hteam := flagOf_team s hWF ft
  refine ⟨by rw [pickupSuccessState, flagOf_setFlag_same], ?_⟩
  cases ft with
  | red =>
    refine ⟨{ p with red := true, blue := false }, ?_, rfl, rfl, rfl⟩
    have hpid' : ({ p with red := true, blue := false } : Player).pid = pid := hpid
    simp only [pickupSuccessState]
    rw [getPlayer_setFlag, hteam, if_pos rfl,
      getPlayer_setPlayer_same s pid _ hpid', hp]
    rfl
  | blue =>
    refine ⟨{ p with red := false, blue := true }, ?_, rfl, rfl, rfl⟩
    have hpid' : ({ p with red := false, blue := true } : Player).pid = pid := hpid
    simp only [pickupSuccessState]
    rw [getPlayer_setFlag, hteam, if_neg (by simp),
      getPlayer_setPlayer_same s pid _ hpid', hp]
    rfl

/-- Only the flag opposing the requester's team can pass the team check, so
the two-flag loop of `attempt_pickup` reduces to its iteration on that
flag. -/
theorem attempt_pickup_eq (s : GameState) (pid : Nat) (p : Player)
    (hWF : WF s) (hp : getPlayer s pid = some p) :
    attempt_pickup pid s = tryPickupFlag pid p.team.opp s := by
  unfold attempt_pickup
  rw [hp]
  cases hteam : p.team with
  | red =>
    rw [tryPickupFlag_eq_of_team pid Team.red s p hp
      (by rw [flagOf_team s hWF, hteam])]
    rfl
  | blue =>
    show tryPickupFlag pid Team.blue (tryPickupFlag pid Team.red s) =
      tryPickupFlag pid Team.red s
    rcases tryPickupFlag_cases pid Team.red s with h | ⟨q, hq, _, _, _, hsucc⟩
    · rw [h]
      exact tryPickupFlag_eq_of_team pid Team.blue s p hp
        (by rw [flagOf_team s hWF, hteam])
    · have hqp : q = p := by rw [hp] at hq; exact (Option.some.inj hq).symm
      subst hqp
      rw [hsucc]
      obtain ⟨-, q', hq', -, -, hq'team⟩ := pickupSuccessState_spec s pid q Team.red hWF hp
      refine tryPickupFlag_eq_of_team pid Team.blue _ q' hq' ?_
      rw [flagOf_pickupSuccessState_ne s pid q Team.red Team.blue (by simp),
        flagOf_team s hWF, hq'team, hteam]

/-- C3: for a connected requester, a pickup attempt succeeds on the
opposing team's flag — the flag's carrier becomes the requester and the
requester's carried-flag indicator for that flag is set — if and only if
that flag is uncarried and the squared distance from the requester to the
flag's current position is at most `PICKUP_RADIUS * PICKUP_RADIUS`, the
boundary being inclusive; otherwise the state is unchanged and no error is
surfaced. -/
theorem pickup_succeeds_iff (s : GameState) (pid : Nat) (p : Player)
    (hWF : WF s) (hp : getPlayer s pid = some p) :
    ((flagOf s p.team.opp).carrier = none ∧
        (p.x - (flagOf s p.team.opp).x) * (p.x - (flagOf s p.team.opp).x) +
            (p.y - (flagOf s p.team.opp).y) * (p.y - (flagOf s p.team.opp).y) ≤
          PICKUP_RADIUS * PICKUP_RADIUS →
      (flagOf (attempt_pickup pid s) p.team.opp).carrier = some pid ∧
        ∃ q, getPlayer (attempt_pickup pid s) pid = some q ∧
          indicator q p.team.opp = true) ∧
    (¬ ((flagOf s p.team.opp).carrier = none ∧
        (p.x - (flagOf s p.team.opp).x) * (p.x - (flagOf s p.team.opp).x) +
            (p.y - (flagOf s p.team.opp).y) * (p.y - (flagOf s p.team.opp).y) ≤
          PICKUP_RADIUS * PICKUP_RADIUS) →
      attempt_pickup pid s = s) := by
  rw [attempt_pickup_eq s pid p hWF hp]
  have hne : (flagOf s p.team.opp).team ≠ p.team := by
    rw [flagOf_team s hWF]; exact Team.opp_ne p.team
  constructor
  · rintro ⟨h2, h3⟩
    rw [tryPickupFlag_eq_of_success pid p.team.opp s p hp hne h2 h3]
    obtain ⟨hc, q, hq, hqi, -, -⟩ :=
      pickupSuccessState_spec s pid p p.team.opp hWF hp
    exact ⟨hc, q, hq, hqi⟩
  · intro h
    rcases Decidable.em ((flagOf s p.team.opp).carrier = none) with hc | hc
    · exact tryPickupFlag_eq_of_far pid p.team.opp s p hp (fun h3 => h ⟨hc, h3⟩)
    · exact tryPickupFlag_eq_of_carried pid p.team.opp s p hp
        (Option.ne_none_iff_isSome.mp hc)

/-- Witness for C3: red player 1 of `stBoundary` stands at squared
distance exactly 900 from the uncarried blue flag, and the pickup
succeeds. -/
theorem pickup_succeeds_iff_witness :
    (flagOf (attempt_pickup 1 stBoundary) pBoundary.team.opp).carrier = some 1 ∧
      ∃ q, getPlayer (attempt_pickup 1 stBoundary) 1 = some q ∧
        indicator q pBoundary.team.opp = true :=
  (pickup_succeeds_iff stBoundary 1 pBoundary (by decide) (by decide)).1
    ⟨by decide, by
      norm_num [pBoundary, stBoundary, flagOf, initBlueFlag, spawnFlag,
        PICKUP_RADIUS, Team.opp]⟩

/-- A successful pickup, spelled out: the loop iteration on the opposing
flag took its success branch. -/
theorem attempt_pickup_success_eq (s : GameState) (pid : Nat) (p : Player)
    (hWF : WF s) (hp : getPlayer s pid = some p)
    (h2 : (flagOf s p.team.opp).carrier = none)
    (h3 : (p.x - (flagOf s p.team.opp).x) * (p.x - (flagOf s p.team.opp).x) +
        (p.y - (flagOf s p.team.opp).y) * (p.y - (flagOf s p.team.opp).y) ≤
        PICKUP_RADIUS * PICKUP_RADIUS) :
    attempt_pickup pid s = pickupSuccessState s pid p p.team.opp := by
  rw [attempt_pickup_eq s pid p hWF hp]
  exact tryPickupFlag_eq_of_success pid p.team.opp s p hp
    (by rw [flagOf_team s hWF]; exact Team.opp_ne p.team) h2 h3

/-- Counterexample to C4: in `stOwnCarry`, red player 1 carries the red
flag (indicator set, carrier names them) and then successfully picks up
the blue flag; afterwards the player's blue indicator is set but the red
indicator has been cleared — the earlier flag's indicator does not
survive a later pickup. -/
theorem pickup_keeps_both_indicators_cex :
    indicator pOwnCarry Team.red = true ∧
      (flagOf stOwnCarry Team.red).carrier = some 1 ∧
      ∃ q, getPlayer (attempt_pickup 1 stOwnCarry) 1 = some q ∧
        indicator q Team.blue = true ∧ indicator q Team.red = false := by
  have heq : attempt_pickup 1 stOwnCarry =
      pickupSuccessState stOwnCarry 1 pOwnCarry Team.blue := by
    have h := attempt_pickup_success_eq stOwnCarry 1 pOwnCarry (by decide)
      (by decide) (by decide)
      (by norm_num [pOwnCarry, stOwnCarry, flagOf, initBlueFlag, spawnFlag,
        PICKUP_RADIUS, Team.opp])
    exact h
  refine ⟨by decide, by decide,
    { pOwnCarry with red := false, blue := true }, ?_, by decide, by decide⟩
  rw [heq]
  decide

/-- C4 amended: a successful pickup overwrites the requester's indicator
pair — the picked flag's indicator is set and the other indicator is
cleared (lines 411-412 of `server.py` clear both before setting one), so
the indicator for a flag picked up earlier never survives and a player
never holds both indicators after a pickup. -/
theorem pickup_overwrites_indicators (s : GameState) (pid : Nat) (p : Player)
    (hWF : WF s) (hp : getPlayer s pid = some p)
    (h2 : (flagOf s p.team.opp).carrier = none)
    (h3 : (p.x - (flagOf s p.team.opp).x) * (p.x - (flagOf s p.team.opp).x) +
        (p.y - (flagOf s p.team.opp).y) * (p.y - (flagOf s p.team.opp).y) ≤
        PICKUP_RADIUS * PICKUP_RADIUS) :
    ∃ q, getPlayer (attempt_pickup pid s) pid = some q ∧
      indicator q p.team.opp = true ∧ indicator q p.team = false := by
  rw [attempt_pickup_success_eq s pid p hWF hp h2 h3]
  obtain ⟨-, q, hq, hqi, hqo, -⟩ :=
    pickupSuccessState_spec s pid p p.team.opp hWF hp
  rw [Team.opp_opp] at hqo
  exact ⟨q, hq, hqi, hqo⟩

/-- Witness for the amended C4 at `stOwnCarry`: player 1 carried the red
flag, picks up the blue flag, and ends with only the blue indicator. -/
theorem pickup_overwrites_indicators_witness :
    ∃ q, getPlayer (attempt_pickup 1 stOwnCarry) 1 = some q ∧
      indicator q pOwnCarry.team.opp = true ∧
      indicator q pOwnCarry.team = false :=
  pickup_overwrites_indicators stOwnCarry 1 pOwnCarry (by decide) (by decide)
    (by decide)
    (by norm_num [pOwnCarry, stOwnCarry, flagOf, initBlueFlag, spawnFlag,
      PICKUP_RADIUS, Team.opp])

/-! ### Characterisation of `attempt_steal` -/

theorem attempt_steal_not_carrying (s : GameState) (a d : Nat) (ft : Team)
    (draw : ℚ) (atk dfd : Player)
    (ha : getPlayer s a = some atk) (hd : getPlayer s d = some dfd)
    (h : indicator dfd ft = false) :
    attempt_steal a d ft draw s = s := by
  have hcond : (ft = Team.red ∧ dfd.red = false) ∨
      (ft = Team.blue ∧ dfd.blue = false) := by
    cases ft
    · exact Or.inl ⟨rfl, h⟩
    · exact Or.inr ⟨rfl, h⟩
  unfold attempt_steal
  rw [ha, hd]
  simp [hcond]

theorem attempt_steal_same_team (s : GameState) (a d : Nat) (ft : Team)
    (draw : ℚ) (atk dfd : Player)
    (ha : getPlayer s a = some atk) (hd : getPlayer s d = some dfd)
    (h : atk.team = dfd.team) :
    attempt_steal a d ft draw s = s := by
  unfold attempt_steal
  rw [ha, hd]
  by_cases hcond : (ft = Team.red ∧ dfd.red = false) ∨
      (ft = Team.blue ∧ dfd.blue = false) <;> simp [hcond, h]

theorem attempt_steal_draw_high (s : GameState) (a d : Nat) (ft : Team)
    (draw : ℚ) (atk dfd : Player)
    (ha : getPlayer s a = some atk) (hd : getPlayer s d = some dfd)
    (h : STEAL_CHANCE ≤ draw) :
    attempt_steal a d ft draw s = s := by
  unfold attempt_steal
  rw [ha, hd]
  by_cases hcond : (ft = Team.red ∧ dfd.red = false) ∨
      (ft = Team.blue ∧ dfd.blue = false)
  · simp [hcond]
  · by_cases hteam : atk.team = dfd.team <;> simp [hcond, hteam, h]

theorem attempt_steal_success (s : GameState) (a d : Nat) (ft : Team)
    (draw : ℚ) (atk dfd : Player)
    (ha : getPlayer s a = some atk) (hd : getPlayer s d = some dfd)
    (hi : indicator dfd ft = true) (ht : atk.team ≠ dfd.team)
    (hdraw : draw < STEAL_CHANCE) :
    attempt_steal a d ft draw s = stealSuccessState s a d atk dfd ft := by
  have hcond : ¬ ((ft = Team.red ∧ dfd.red = false) ∨
      (ft = Team.blue ∧ dfd.blue = false)) := by
    rintro (⟨hft, hr⟩ | ⟨hft, hr⟩) <;> subst hft <;>
      simp [indicator] at hi <;> simp [hi] at hr
  unfold attempt_steal
  rw [ha, hd]
  simp [hcond, ht, not_le.mpr hdraw, stealSuccessState]

theorem stealSuccessState_spec (s : GameState) (a d : Nat)
    (atk dfd : Player) (ft : Team)
    (ha : getPlayer s a = some atk) (hd : getPlayer s d = some dfd)
    (hne : a ≠ d) :
    (flagOf (stealSuccessState s a d atk dfd ft) ft).carrier = some atk.pid ∧
      (flagOf (stealSuccessState s a d atk dfd ft) ft).x = atk.x ∧
      (flagOf (stealSuccessState s a d atk dfd ft) ft).y = atk.y ∧
      getPlayer (stealSuccessState s a d atk dfd ft) a =
        some { atk with
                 red := decide (ft = Team.red)
                 blue := decide (ft = Team.blue) } ∧
      getPlayer (stealSuccessState s a d atk dfd ft) d =
        some { dfd with red := false, blue := false } := by
  have hapid := getPlayer_pid s a atk ha
  have hdpid := getPlayer_pid s d dfd hd
  have hapid' : ({ atk with
      red := decide (ft = Team.red)
      blue := decide (ft = Team.blue) } : Player).pid = a := hapid
  have hdpid' : ({ dfd with red := false, blue := false } : Player).pid = d :=
    hdpid
  refine ⟨?_, ?_, ?_, ?_, ?_⟩
  · rw [stealSuccessState, flagOf_setFlag_same]
  · rw [stealSuccessState, flagOf_setFlag_same]
  · rw [stealSuccessState, flagOf_setFlag_same]
  · simp only [stealSuccessState]
    rw [getPlayer_setFlag, getPlayer_setPlayer_same _ _ _ hapid',
      getPlayer_setPlayer_ne _ _ _ _ hdpid' hne, ha]
    rfl
  · simp only [stealSuccessState]
    rw [getPlayer_setFlag, getPlayer_setPlayer_ne _ _ _ _ hapid' (Ne.symm hne),
      getPlayer_setPlayer_same _ _ _ hdpid', hd]
    rfl

/-- Counterexample to C2: in `stStealFar` the attacker is at squared
distance 1360000 from the defender — far outside any proximity radius —
yet with the other conditions met and a draw of 0 the steal succeeds: the
red flag's carrier becomes the attacker and the attacker gains the red
indicator.  The claim's distance conjunct is not checked by the code. -/
theorem steal_distance_cex :
    ¬ ((pAtkFar.x - pDefFar.x) * (pAtkFar.x - pDefFar.x) +
        (pAtkFar.y - pDefFar.y) * (pAtkFar.y - pDefFar.y) ≤
        PICKUP_RADIUS * PICKUP_RADIUS) ∧
      indicator pDefFar Team.red = true ∧
      pAtkFar.team ≠ pDefFar.team ∧
      (flagOf (attempt_steal 1 2 Team.red 0 stStealFar) Team.red).carrier =
        some 1 ∧
      ∃ q, getPlayer (attempt_steal 1 2 Team.red 0 stStealFar) 1 = some q ∧
        indicator q Team.red = true := by
  have heq : attempt_steal 1 2 Team.red 0 stStealFar =
      stealSuccessState stStealFar 1 2 pAtkFar pDefFar Team.red :=
    attempt_steal_success stStealFar 1 2 Team.red 0 pAtkFar pDefFar
      (by decide) (by decide) (by decide) (by decide)
      (by norm_num [STEAL_CHANCE])
  refine ⟨by norm_num [pAtkFar, pDefFar, PICKUP_RADIUS], by decide, by decide,
    ?_, ?_⟩
  · rw [heq]; decide
  · refine ⟨{ pAtkFar with red := true, blue := false }, ?_, by decide⟩
    rw [heq]; decide

/-- C2 amended: for existing attacker and defender, a steal succeeds — the
named flag's indicator moves from defender to attacker and the flag's
carrier and position move to the attacker — if and only if the defender
carries the named flag, the teams differ, and the draw is below
`STEAL_CHANCE`; no proximity condition is checked.  In every other case
the state is unchanged. -/
theorem steal_succeeds_iff (s : GameState) (a d : Nat) (ft : Team)
    (draw : ℚ) (atk dfd : Player)
    (ha : getPlayer s a = some atk) (hd : getPlayer s d = some dfd) :
    (indicator dfd ft = true ∧ atk.team ≠ dfd.team ∧ draw < STEAL_CHANCE →
      (flagOf (attempt_steal a d ft draw s) ft).carrier = some atk.pid ∧
        (flagOf (attempt_steal a d ft draw s) ft).x = atk.x ∧
        (flagOf (attempt_steal a d ft draw s) ft).y = atk.y ∧
        (∃ q, getPlayer (attempt_steal a d ft draw s) a = some q ∧
          indicator q ft = true) ∧
        ∃ q, getPlayer (attempt_steal a d ft draw s) d = some q ∧
          indicator q ft = false) ∧
    (¬ (indicator dfd ft = true ∧ atk.team ≠ dfd.team ∧ draw < STEAL_CHANCE) →
      attempt_steal a d ft draw s = s) := by
  constructor
  · rintro ⟨hi, ht, hdraw⟩
    have hne : a ≠ d := by
      rintro rfl
      rw [ha] at hd
      exact ht (congrArg Player.team (Option.some.inj hd))
    rw [attempt_steal_success s a d ft draw atk dfd ha hd hi ht hdraw]
    obtain ⟨h1, h2, h3, h4, h5⟩ :=
      stealSuccessState_spec s a d atk dfd ft ha hd hne
    refine ⟨h1, h2, h3, ⟨_, h4, ?_⟩, ⟨_, h5, ?_⟩⟩
    · cases ft <;> simp [indicator]
    · cases ft <;> simp [indicator]
  · intro h
    rcases Decidable.em (indicator dfd ft = true) with hi | hi
    · rcases Decidable.em (atk.team = dfd.team) with ht | ht
      · exact attempt_steal_same_team s a d ft draw atk dfd ha hd ht
      · refine attempt_steal_draw_high s a d ft draw atk dfd ha hd ?_
        rcases Decidable.em (STEAL_CHANCE ≤ draw) with hle | hle
        · exact hle
        · exact absurd ⟨hi, ht, not_le.mp hle⟩ h
    · exact attempt_steal_not_carrying s a d ft draw atk dfd ha hd
        (Bool.not_eq_true _ ▸ Bool.of_not_eq_true hi)

/-- Witness for the amended C2: the far-apart steal of `stStealFar` with a
draw of 0 satisfies the three conditions and succeeds. -/
theorem steal_succeeds_iff_witness :
    (flagOf (attempt_steal 1 2 Team.red 0 stStealFar) Team.red).carrier =
        some pAtkFar.pid ∧
      (flagOf (attempt_steal 1 2 Team.red 0 stStealFar) Team.red).x =
        pAtkFar.x ∧
      (flagOf (attempt_steal 1 2 Team.red 0 stStealFar) Team.red).y =
        pAtkFar.y ∧
      (∃ q, getPlayer (attempt_steal 1 2 Team.red 0 stStealFar) 1 = some q ∧
        indicator q Team.red = true) ∧
      ∃ q, getPlayer (attempt_steal 1 2 Team.red 0 stStealFar) 2 = some q ∧
        indicator q Team.red = false :=
  (steal_succeeds_iff stStealFar 1 2 Team.red 0 pAtkFar pDefFar
      (by decide) (by decide)).1
    ⟨by decide, by decide, by norm_num [STEAL_CHANCE]⟩

/-! ### Movement -/

theorem clamp_nonneg (hi v : ℚ) : 0 ≤ clamp hi v :=
  le_max_left 0 (min hi v)

theorem clamp_le (hi v : ℚ) (h : 0 ≤ hi) : clamp hi v ≤ hi :=
  max_le h (min_le_left hi v)

theorem clamp_eq_self (hi v : ℚ) (h0 : 0 ≤ v) (h1 : v ≤ hi) :
    clamp hi v = v := by
  rw [clamp, min_eq_right h1, max_eq_right h0]

theorem handle_input_bounds (k : MoveKeys) (x y : ℚ) :
    0 ≤ (handle_input k x y).1 ∧ (handle_input k x y).1 ≤ MAP_WIDTH ∧
      0 ≤ (handle_input k x y).2 ∧ (handle_input k x y).2 ≤ MAP_HEIGHT :=
  ⟨clamp_nonneg _ _, clamp_le _ _ (by norm_num [MAP_WIDTH]),
    clamp_nonneg _ _, clamp_le _ _ (by norm_num [MAP_HEIGHT])⟩

theorem applyInputs_bounds (ks : List MoveKeys) (pos : ℚ × ℚ)
    (h : 0 ≤ pos.1 ∧ pos.1 ≤ MAP_WIDTH ∧ 0 ≤ pos.2 ∧ pos.2 ≤ MAP_HEIGHT) :
    0 ≤ (applyInputs pos ks).1 ∧ (applyInputs pos ks).1 ≤ MAP_WIDTH ∧
      0 ≤ (applyInputs pos ks).2 ∧ (applyInputs pos ks).2 ≤ MAP_HEIGHT := by
  induction ks generalizing pos with
  | nil => exact h
  | cons k ks ih =>
    exact ih (handle_input k pos.1 pos.2) (handle_input_bounds k pos.1 pos.2)

/-- C8: movement is applied per axis with opposite directions cancelling
(both held leaves that coordinate unchanged for an in-bounds position),
each applied direction changes the unclamped coordinate by exactly
`SPEED`, the result is the clamp of the stepped position, and after any
sequence of movement intents starting in bounds the position stays within
`[0, MAP_WIDTH] × [0, MAP_HEIGHT]`. -/
theorem movement_spec (k : MoveKeys) (x y : ℚ)
    (hx0 : 0 ≤ x) (hx1 : x ≤ MAP_WIDTH) (hy0 : 0 ≤ y) (hy1 : y ≤ MAP_HEIGHT) :
    (k.up = true ∧ k.down = true → (handle_input k x y).2 = y) ∧
      (k.left = true ∧ k.right = true → (handle_input k x y).1 = x) ∧
      (k.up = false ∧ k.down = false → (handle_input k x y).2 = y) ∧
      (k.left = false ∧ k.right = false → (handle_input k x y).1 = x) ∧
      (k.up = true ∧ k.down = false → (stepMove k x y).2 = y - SPEED) ∧
      (k.down = true ∧ k.up = false → (stepMove k x y).2 = y + SPEED) ∧
      (k.left = true ∧ k.right = false → (stepMove k x y).1 = x - SPEED) ∧
      (k.right = true ∧ k.left = false → (stepMove k x y).1 = x + SPEED) ∧
      handle_input k x y =
        (clamp MAP_WIDTH (stepMove k x y).1, clamp MAP_HEIGHT (stepMove k x y).2) ∧
      ∀ ks : List MoveKeys,
        0 ≤ (applyInputs (x, y) ks).1 ∧
          (applyInputs (x, y) ks).1 ≤ MAP_WIDTH ∧
          0 ≤ (applyInputs (x, y) ks).2 ∧
          (applyInputs (x, y) ks).2 ≤ MAP_HEIGHT := by
  refine ⟨?_, ?_, ?_, ?_, ?_, ?_, ?_, ?_, rfl, ?_⟩
  · rintro ⟨h1, h2⟩
    show clamp MAP_HEIGHT (stepMove k x y).2 = y
    simp only [stepMove, h1, h2]
    norm_num
    exact clamp_eq_self _ _ hy0 hy1
  · rintro ⟨h1, h2⟩
    show clamp MAP_WIDTH (stepMove k x y).1 = x
    simp only [stepMove, h1, h2]
    norm_num
    exact clamp_eq_self _ _ hx0 hx1
  · rintro ⟨h1, h2⟩
    show clamp MAP_HEIGHT (stepMove k x y).2 = y
    simp only [stepMove, h1, h2]
    norm_num
    exact clamp_eq_self _ _ hy0 hy1
  · rintro ⟨h1, h2⟩
    show clamp MAP_WIDTH (stepMove k x y).1 = x
    simp only [stepMove, h1, h2]
    norm_num
    exact clamp_eq_self _ _ hx0 hx1
  · rintro ⟨h1, h2⟩
    simp only [stepMove, h1, h2]
    norm_num
  · rintro ⟨h1, h2⟩
    simp only [stepMove, h1, h2]
    norm_num
  · rintro ⟨h1, h2⟩
    simp only [stepMove, h1, h2]
    norm_num
  · rintro ⟨h1, h2⟩
    simp only [stepMove, h1, h2]
    norm_num
  · intro ks
    exact applyInputs_bounds ks (x, y) ⟨hx0, hx1, hy0, hy1⟩

/-- Witness for C8 at the spawn position of player 1 with both vertical
keys held and `right` pressed. -/
theorem movement_spec_witness :
    (handle_input ⟨true, true, false, true⟩ 120 137).2 = 137 ∧
      (stepMove ⟨true, true, false, true⟩ 120 137).1 = 120 + SPEED := by
  have h := movement_spec ⟨true, true, false, true⟩ 120 137
    (by norm_num) (by norm_num [MAP_WIDTH]) (by norm_num)
    (by norm_num [MAP_HEIGHT])
  exact ⟨h.1 ⟨rfl, rfl⟩, h.2.2.2.2.2.2.2.1 ⟨rfl, rfl⟩⟩

/-! ### Player removal -/

theorem players_remove_player (s : GameState) (pid : Nat) (p : Player)
    (hp : getPlayer s pid = some p) :
    (remove_player pid s).players =
      s.players.filter (fun q => q.pid ≠ pid) := by
  unfold remove_player
  rw [hp]
  by_cases hr : p.red <;> by_cases hb : p.blue <;> simp [hr, hb]

theorem getPlayer_remove_player (s : GameState) (pid : Nat) (p : Player)
    (hp : getPlayer s pid = some p) :
    getPlayer (remove_player pid s) pid = none := by
  rw [getPlayer, players_remove_player s pid p hp, List.find?_eq_none]
  intro x hx
  rw [List.mem_filter] at hx
  simpa using hx.2

theorem flagOf_remove_player (s : GameState) (pid : Nat) (p : Player)
    (t : Team) (hp : getPlayer s pid = some p) :
    flagOf (remove_player pid s) t =
      if indicator p t then resetFlag (flagOf s t) else flagOf s t := by
  unfold remove_player
  rw [hp]
  cases t <;> by_cases hr : p.red <;> by_cases hb : p.blue <;>
    simp [flagOf, indicator, hr, hb]

/-- C7: removing a player who carries the flag of team `t` (their
indicator for `t` is set) deletes the player and resets that flag —
carrier empty, position back to spawn — in the same step; and provided
every flag naming the player as carrier is one the player's indicators
claim, no flag still names the removed player afterwards. -/
theorem remove_releases_carried_flag (s : GameState) (pid : Nat) (p : Player)
    (t : Team) (hp : getPlayer s pid = some p) (hi : indicator p t = true)
    (hcons : ∀ u : Team, (flagOf s u).carrier = some pid →
      indicator p u = true) :
    getPlayer (remove_player pid s) pid = none ∧
      (flagOf (remove_player pid s) t).carrier = none ∧
      (flagOf (remove_player pid s) t).x = (flagOf s t).spawn_x ∧
      (flagOf (remove_player pid s) t).y = (flagOf s t).spawn_y ∧
      ∀ u : Team, (flagOf (remove_player pid s) u).carrier ≠ some pid := by
  have hft : flagOf (remove_player pid s) t = resetFlag (flagOf s t) := by
    rw [flagOf_remove_player s pid p t hp, if_pos hi]
  refine ⟨getPlayer_remove_player s pid p hp, ?_, ?_, ?_, ?_⟩
  · rw [hft]; rfl
  · rw [hft]; rfl
  · rw [hft]; rfl
  · intro u
    rw [flagOf_remove_player s pid p u hp]
    by_cases hu : indicator p u = true
    · rw [if_pos hu]
      simp [resetFlag]
    · rw [if_neg hu]
      intro hc
      exact hu (hcons u hc)

/-- Witness for C7: removing player 1 of `stScore`, who carries the blue
flag, leaves the blue flag uncarried at its spawn and no flag naming
player 1. -/
theorem remove_releases_carried_flag_witness :
    getPlayer (remove_player 1 stScore) 1 = none ∧
      (flagOf (remove_player 1 stScore) Team.blue).carrier = none ∧
      (flagOf (remove_player 1 stScore) Team.blue).x =
        (flagOf stScore Team.blue).spawn_x ∧
      (flagOf (remove_player 1 stScore) Team.blue).y =
        (flagOf stScore Team.blue).spawn_y ∧
      ∀ u : Team, (flagOf (remove_player 1 stScore) u).carrier ≠ some 1 :=
  remove_releases_carried_flag stScore 1 pScorer Team.blue (by decide)
    (by decide) (by decide)

/-! ### Scoring -/

theorem scoreOf_addScore_same (g : GameState) (t : Team) (n : Nat) :
    scoreOf (addScore g t n) t = scoreOf g t + n := by
  cases t <;> rfl

theorem scoreOf_addScore_ne (g : GameState) (t u : Team) (n : Nat)
    (h : u ≠ t) : scoreOf (addScore g t n) u = scoreOf g u := by
  cases t <;> cases u <;> first | rfl | simp at h

theorem flagOf_addScore (g : GameState) (t u : Team) (n : Nat) :
    flagOf (addScore g t n) u = flagOf g u := by
  cases t <;> cases u <;> rfl

theorem players_addScore (g : GameState) (t : Team) (n : Nat) :
    (addScore g t n).players = g.players := by
  cases t <;> rfl

theorem scoreOf_resetAll (g : GameState) (t : Team) :
    scoreOf (resetAll g) t = scoreOf g t := by
  cases t <;> rfl

theorem flagOf_resetAll (g : GameState) (t : Team) :
    flagOf (resetAll g) t = resetFlag (flagOf g t) := by
  cases t <;> rfl

theorem players_resetAll (g : GameState) :
    (resetAll g).players =
      g.players.map (fun p => { p with red := false, blue := false }) := rfl

theorem applyScore_game (st : ServerState) (p : Player) :
    (applyScore st p).game =
      resetAll (addScore st.game p.team (carriedCount p)) := by
  unfold applyScore
  by_cases h : SCORE_TO_WIN ≤
      scoreOf (addScore st.game p.team (carriedCount p)) p.team <;> simp [h]

theorem applyScore_win (st : ServerState) (p : Player)
    (h : SCORE_TO_WIN ≤ scoreOf st.game p.team + carriedCount p) :
    (applyScore st p).overMsgs = st.overMsgs ++ [p.team] ∧
      (applyScore st p).running = false := by
  simp [applyScore, scoreOf_addScore_same, h]

theorem applyScore_no_win (st : ServerState) (p : Player)
    (h : ¬ SCORE_TO_WIN ≤ scoreOf st.game p.team + carriedCount p) :
    (applyScore st p).overMsgs = st.overMsgs ∧
      (applyScore st p).running = st.running := by
  simp [applyScore, scoreOf_addScore_same, h]

theorem checkScoreAux_first (st : ServerState) (l₁ l₂ : List Player)
    (p : Player) (h1 : ∀ q ∈ l₁, eligible st.game q = false)
    (h2 : eligible st.game p = true) :
    checkScoreAux st (l₁ ++ p :: l₂) = applyScore st p := by
  induction l₁ with
  | nil => simp [checkScoreAux, h2]
  | cons a l ih =>
    have ha := h1 a (by simp)
    rw [List.cons_append, checkScoreAux, ha]
    · exact ih (fun q hq => h1 q (by simp [hq]))

theorem checkScoreAux_cases (st : ServerState) (l : List Player) :
    checkScoreAux st l = st ∨
      ∃ p ∈ l, eligible st.game p = true ∧
        checkScoreAux st l = applyScore st p := by
  induction l with
  | nil => exact Or.inl rfl
  | cons a l ih =>
    by_cases ha : eligible st.game a = true
    · exact Or.inr ⟨a, by simp, ha, by rw [checkScoreAux, if_pos ha]⟩
    · rw [checkScoreAux, if_neg ha]
      rcases ih with h | ⟨p, hp, he, heq⟩
      · exact Or.inl h
      · exact Or.inr ⟨p, by simp [hp], he, heq⟩

theorem eligible_carriedCount (g : GameState) (p : Player)
    (h : eligible g p = true) : 0 < carriedCount p := by
  have := (Bool.and_eq_true _ _).mp h
  simpa using this.1

/-- C5: when the scoring evaluation reaches a player carrying `N` opposing
flags (`N` = 1 or 2; no earlier player in iteration order passes the test)
whose squared distance to their own team's flag spawn is at most
`BASE_RADIUS * BASE_RADIUS`, one evaluation adds exactly `N` to that
player's team's score and leaves the other team's score unchanged; in the
same step every flag is uncarried at its spawn position and every player's
carried-flag indicators are cleared. -/
theorem scoring_event_spec (st : ServerState) (l₁ l₂ : List Player)
    (p : Player) (N : Nat)
    (hsplit : st.game.players = l₁ ++ p :: l₂)
    (hfirst : ∀ q ∈ l₁, eligible st.game q = false)
    (hN : carriedCount p = N) (hN12 : N = 1 ∨ N = 2)
    (hdist : (p.x - (flagOf st.game p.team).spawn_x) *
          (p.x - (flagOf st.game p.team).spawn_x) +
        (p.y - (flagOf st.game p.team).spawn_y) *
          (p.y - (flagOf st.game p.team).spawn_y) ≤
        BASE_RADIUS * BASE_RADIUS) :
    scoreOf (check_score st).game p.team = scoreOf st.game p.team + N ∧
      scoreOf (check_score st).game p.team.opp =
        scoreOf st.game p.team.opp ∧
      (∀ t : Team, (flagOf (check_score st).game t).carrier = none ∧
        (flagOf (check_score st).game t).x = (flagOf st.game t).spawn_x ∧
        (flagOf (check_score st).game t).y = (flagOf st.game t).spawn_y) ∧
      ∀ q ∈ (check_score st).game.players,
        q.red = false ∧ q.blue = false := by
  have hpos : 0 < carriedCount p := by
    rw [hN]; rcases hN12 with h | h <;> rw [h] <;> norm_num
  have helig : eligible st.game p = true := by
    simp only [eligible, Bool.and_eq_true, decide_eq_true_eq]
    exact ⟨hpos, hdist⟩
  have heq : check_score st = applyScore st p := by
    rw [check_score, hsplit]
    exact checkScoreAux_first st l₁ l₂ p hfirst helig
  rw [heq, applyScore_game]
  refine ⟨?_, ?_, ?_, ?_⟩
  · rw [scoreOf_resetAll, hN, scoreOf_addScore_same]
  · rw [scoreOf_resetAll, scoreOf_addScore_ne _ _ _ _ (Team.opp_ne p.team)]
  · intro t
    rw [flagOf_resetAll, flagOf_addScore]
    exact ⟨rfl, rfl, rfl⟩
  · intro q hq
    rw [players_resetAll] at hq
    obtain ⟨r, -, rfl⟩ := List.mem_map.mp hq
    exact ⟨rfl, rfl⟩

/-- Witness for C5 at `svScore`: player 1 carries one opposing flag on
their own spawn; the evaluation scores exactly one point for red and
resets everything. -/
theorem scoring_event_spec_witness :
    scoreOf (check_score svScore).game pScorer.team =
        scoreOf svScore.game pScorer.team + 1 ∧
      scoreOf (check_score svScore).game pScorer.team.opp =
        scoreOf svScore.game pScorer.team.opp ∧
      (∀ t : Team, (flagOf (check_score svScore).game t).carrier = none ∧
        (flagOf (check_score svScore).game t).x =
          (flagOf svScore.game t).spawn_x ∧
        (flagOf (check_score svScore).game t).y =
          (flagOf svScore.game t).spawn_y) ∧
      ∀ q ∈ (check_score svScore).game.players,
        q.red = false ∧ q.blue = false :=
  scoring_event_spec svScore [] [] pScorer 1 (by decide) (by simp)
    (by decide) (Or.inl rfl)
    (by norm_num [pScorer, svScore, stScore, flagOf, initRedFlag, spawnFlag,
      BASE_RADIUS])

/-- C10: one scoring evaluation applies at most one scoring event — either
no player passes the test and the state is returned unchanged, or the
evaluation stops at the first passing player `p`: only `p`'s team's score
changes (by `p`'s positive carried count), the other team's score is
unchanged, and every player's indicators are cleared by the reset, so no
other simultaneously-eligible player scores in the same evaluation. -/
theorem check_score_at_most_one (st : ServerState) :
    check_score st = st ∨
      ∃ p ∈ st.game.players, eligible st.game p = true ∧
        check_score st = applyScore st p ∧
        0 < carriedCount p ∧
        scoreOf (check_score st).game p.team =
          scoreOf st.game p.team + carriedCount p ∧
        scoreOf (check_score st).game p.team.opp =
          scoreOf st.game p.team.opp ∧
        ∀ q ∈ (check_score st).game.players,
          q.red = false ∧ q.blue = false := by
  rcases checkScoreAux_cases st st.game.players with h | ⟨p, hp, he, heq⟩
  · exact Or.inl h
  · have heq' : check_score st = applyScore st p := heq
    refine Or.inr ⟨p, hp, he, heq', eligible_carriedCount st.game p he,
      ?_, ?_, ?_⟩
    · rw [heq', applyScore_game, scoreOf_resetAll, scoreOf_addScore_same]
    · rw [heq', applyScore_game, scoreOf_resetAll,
        scoreOf_addScore_ne _ _ _ _ (Team.opp_ne p.team)]
    · intro q hq
      rw [heq', applyScore_game, players_resetAll] at hq
      obtain ⟨r, -, rfl⟩ := List.mem_map.mp hq
      exact ⟨rfl, rfl⟩

/-! ### Listener framing errors -/

/-- Counterexample to C9: a malformed line does not leave the connection
open with the frame discarded — the listener enqueues a `disconnect`
message and stops, dropping the valid frame after the malformed one,
whereas the same valid frame alone is processed normally. -/
theorem malformed_frame_cex :
    processFrames [Frame.malformed, Frame.valid ClientMsg.pickupMsg] =
        ([LEvent.queued ClientMsg.disconnect], false) ∧
      processFrames [Frame.valid ClientMsg.pickupMsg] =
        ([LEvent.didPickup], true) := by
  exact ⟨rfl, rfl⟩

/-- C9 amended: `json.loads` raising on a malformed line escapes the
line-processing loop to the outer handler, which enqueues a `disconnect`
message and ends the listener; the lines after the malformed one are never
processed, and only a batch with no malformed line keeps the listener
alive (one event per line). -/
theorem processFrames_spec :
    (∀ fs : List Frame, Frame.malformed ∉ fs →
      (processFrames fs).2 = true ∧
        (processFrames fs).1.length = fs.length) ∧
    ∀ fs₁ fs₂ : List Frame, Frame.malformed ∉ fs₁ →
      processFrames (fs₁ ++ Frame.malformed :: fs₂) =
        ((processFrames fs₁).1 ++ [LEvent.queued ClientMsg.disconnect],
          false) := by
  constructor
  · intro fs h
    induction fs with
    | nil => exact ⟨rfl, rfl⟩
    | cons f rest ih =>
      cases f with
      | valid m =>
        have hrest : Frame.malformed ∉ rest := fun hm => h (by simp [hm])
        obtain ⟨h1, h2⟩ := ih hrest
        exact ⟨h1, by simp [processFrames, h2]⟩
      | malformed => exact absurd (by simp) h
  · intro fs₁ fs₂ h
    induction fs₁ with
    | nil => rfl
    | cons f rest ih =>
      cases f with
      | valid m =>
        have hrest : Frame.malformed ∉ rest := fun hm => h (by simp [hm])
        simp [processFrames, ih hrest]
      | malformed => exact absurd (by simp) h

/-! ### Carrier consistency -/

theorem mem_setPlayer (s : GameState) (pid : Nat) (p' : Player) (q : Player) :
    q ∈ (setPlayer s pid p').players ↔
      ∃ r ∈ s.players, (if r.pid == pid then p' else r) = q := by
  simp [setPlayer, List.mem_map]

theorem getPlayer_unique (s : GameState) (hWF : WF s) (pid : Nat) (p : Player)
    (hp : getPlayer s pid = some p) (r : Player) (hr : r ∈ s.players)
    (hpid : r.pid = pid) : r = p := by
  have hpmem := getPlayer_mem s pid p hp
  have hppid := getPlayer_pid s pid p hp
  exact List.inj_on_of_nodup_map hWF.1 hr hpmem (by rw [hpid, hppid])

theorem attempt_pickup_none (s : GameState) (pid : Nat)
    (h : getPlayer s pid = none) : attempt_pickup pid s = s := by
  unfold attempt_pickup
  rw [h]

theorem attempt_steal_none (s : GameState) (a d : Nat) (ft : Team) (draw : ℚ)
    (h : getPlayer s a = none ∨ getPlayer s d = none) :
    attempt_steal a d ft draw s = s := by
  unfold attempt_steal
  rcases h with h | h
  · rw [h]
  · rw [h]
    cases getPlayer s a <;> rfl

theorem attempt_steal_cases (s : GameState) (a d : Nat) (ft : Team)
    (draw : ℚ) :
    attempt_steal a d ft draw s = s ∨
      ∃ atk dfd, getPlayer s a = some atk ∧ getPlayer s d = some dfd ∧
        indicator dfd ft = true ∧ atk.team ≠ dfd.team ∧
        draw < STEAL_CHANCE ∧
        attempt_steal a d ft draw s = stealSuccessState s a d atk dfd ft := by
  cases ha : getPlayer s a with
  | none => exact Or.inl (attempt_steal_none s a d ft draw (Or.inl ha))
  | some atk =>
    cases hd : getPlayer s d with
    | none => exact Or.inl (attempt_steal_none s a d ft draw (Or.inr hd))
    | some dfd =>
      by_cases hi : indicator dfd ft = true
      · by_cases ht : atk.team = dfd.team
        · exact Or.inl (attempt_steal_same_team s a d ft draw atk dfd ha hd ht)
        · by_cases hdraw : draw < STEAL_CHANCE
          · exact Or.inr ⟨atk, dfd, rfl, rfl, hi, ht, hdraw,
              attempt_steal_success s a d ft draw atk dfd ha hd hi ht hdraw⟩
          · exact Or.inl (attempt_steal_draw_high s a d ft draw atk dfd ha hd
              (not_lt.mp hdraw))
      · exact Or.inl (attempt_steal_not_carrying s a d ft draw atk dfd ha hd
          (Bool.not_eq_true _ ▸ Bool.of_not_eq_true hi))

theorem carrierConsistent_resetAll (g : GameState) :
    carrierConsistent (resetAll g) := by
  have hflag : ∀ t, flagConsistent (resetAll g) t := by
    intro t
    constructor
    · intro pid hpid
      rw [flagOf_resetAll] at hpid
      simp [resetFlag] at hpid
    · intro p hp hi
      rw [players_resetAll] at hp
      obtain ⟨r, -, rfl⟩ := List.mem_map.mp hp
      cases t <;> simp [indicator] at hi
  exact ⟨hflag Team.red, hflag Team.blue⟩

theorem check_score_preserves (st : ServerState)
    (h : carrierConsistent st.game) :
    carrierConsistent (check_score st).game := by
  rcases checkScoreAux_cases st st.game.players with hc | ⟨p, -, -, hc⟩
  · have : check_score st = st := hc
    rw [this]
    exact h
  · have : check_score st = applyScore st p := hc
    rw [this, applyScore_game]
    exact carrierConsistent_resetAll _

theorem remove_player_preserves (s : GameState) (pid : Nat) (hWF : WF s)
    (h : carrierConsistent s) :
    carrierConsistent (remove_player pid s) := by
  cases hg : getPlayer s pid with
  | none =>
    have : remove_player pid s = s := by
      unfold remove_player
      rw [hg]
    rw [this]
    exact h
  | some p =>
    have hppid := getPlayer_pid s pid p hg
    have hpmem := getPlayer_mem s pid p hg
    have hflag : ∀ t, flagConsistent s t → flagConsistent (remove_player pid s) t := by
      intro t ⟨h1, h2⟩
      rw [flagConsistent, flagOf_remove_player s pid p t hg,
        players_remove_player s pid p hg]
      by_cases hi : indicator p t = true
      · rw [if_pos hi]
        constructor
        · intro c hc
          simp [resetFlag] at hc
        · intro q hq hqi
          rw [List.mem_filter] at hq
          have hqc := h2 q hq.1 hqi
          have hpc := h2 p hpmem hi
          have : q.pid = p.pid := by
            rw [hqc] at hpc
            exact Option.some.inj hpc
          have : q.pid ≠ pid := by simpa using hq.2
          simp [resetFlag]
          exact absurd (by rw [‹q.pid = p.pid›, hppid]) this
      · rw [if_neg hi]
        constructor
        · intro c hc
          obtain ⟨r, hr, hrpid, hri⟩ := h1 c hc
          refine ⟨r, ?_, hrpid, hri⟩
          rw [List.mem_filter]
          refine ⟨hr, ?_⟩
          simp only [decide_eq_true_eq]
          intro hrp
          have : r = p := getPlayer_unique s hWF pid p hg r hr hrp
          rw [this] at hri
          exact hi hri
        · intro q hq hqi
          rw [List.mem_filter] at hq
          exact h2 q hq.1 hqi
    exact ⟨hflag Team.red h.1, hflag Team.blue h.2⟩

theorem indicator_of_false (p : Player) (h1 : p.red = false)
    (h2 : p.blue = false) (t : Team) : indicator p t = false := by
  cases t
  · exact h1
  · exact h2

theorem pickedPlayer_pid (p : Player) (ft : Team) :
    (pickedPlayer p ft).pid = p.pid := by
  cases ft <;> rfl

theorem indicator_pickedPlayer_same (p : Player) (ft : Team) :
    indicator (pickedPlayer p ft) ft = true := by
  cases ft <;> rfl

theorem indicator_pickedPlayer_opp (p : Player) (ft : Team) :
    indicator (pickedPlayer p ft) ft.opp = false := by
  cases ft <;> rfl

theorem pickupSuccessState_eq (s : GameState) (pid : Nat) (p : Player)
    (ft : Team) (hWF : WF s) :
    pickupSuccessState s pid p ft =
      setFlag (setPlayer s pid (pickedPlayer p ft)) ft
        { flagOf s ft with carrier := some pid } := by
  cases ft with
  | red =>
    have hteam : s.redFlag.team = Team.red := hWF.2.1
    simp only [pickupSuccessState, pickedPlayer, flagOf]
    rw [hteam]
    simp
  | blue =>
    have hteam : s.blueFlag.team = Team.blue := hWF.2.2
    simp only [pickupSuccessState, pickedPlayer, flagOf]
    rw [hteam]

theorem carrierConsistent_pickupSuccess (s : GameState) (pid : Nat)
    (p : Player) (ft : Team) (hWF : WF s) (hcons : carrierConsistent s)
    (hp : getPlayer s pid = some p)
    (hr : p.red = false) (hb : p.blue = false)
    (hc : (flagOf s ft).carrier = none) :
    carrierConsistent (pickupSuccessState s pid p ft) := by
  have hppid := getPlayer_pid s pid p hp
  have hpmem := getPlayer_mem s pid p hp
  have hstate := pickupSuccessState_eq s pid p ft hWF
  have hplayers : (pickupSuccessState s pid p ft).players =
      (setPlayer s pid (pickedPlayer p ft)).players := by
    rw [hstate, players_setFlag]
  have hcar : (flagOf (pickupSuccessState s pid p ft) ft).carrier =
      some pid := by
    rw [hstate, flagOf_setFlag_same]
  have hflag_opp : flagOf (pickupSuccessState s pid p ft) ft.opp =
      flagOf s ft.opp := by
    rw [hstate, flagOf_setFlag_ne _ _ _ _ (Team.opp_ne ft), flagOf_setPlayer]
  have hconsOn : ∀ t, flagConsistent s t := by
    intro t
    cases t
    · exact hcons.1
    · exact hcons.2
  have hmain : flagConsistent (pickupSuccessState s pid p ft) ft := by
    constructor
    · intro c hcc
      rw [Option.mem_def, hcar] at hcc
      obtain rfl := Option.some.inj hcc
      refine ⟨pickedPlayer p ft, ?_, ?_, indicator_pickedPlayer_same p ft⟩
      · rw [hplayers, mem_setPlayer]
        exact ⟨p, hpmem, by simp [hppid]⟩
      · rw [pickedPlayer_pid, hppid]
    · intro q hq hqi
      rw [hplayers, mem_setPlayer] at hq
      obtain ⟨r, hrm, hrq⟩ := hq
      rw [hcar]
      by_cases hrp : r.pid = pid
      · rw [if_pos (by simp [hrp])] at hrq
        subst hrq
        rw [pickedPlayer_pid, hppid]
      · rw [if_neg (by simp [hrp])] at hrq
        subst hrq
        have hcontra := (hconsOn ft).2 r hrm hqi
        rw [hc] at hcontra
        exact absurd hcontra (by simp)
  have hopp : flagConsistent (pickupSuccessState s pid p ft) ft.opp := by
    constructor
    · intro c hcc
      rw [Option.mem_def, hflag_opp] at hcc
      obtain ⟨r, hrm, hrpid, hri⟩ := (hconsOn ft.opp).1 c (by
        rw [Option.mem_def]
        exact hcc)
      have hrp : r.pid ≠ pid := by
        intro hrp
        have hre : r = p := getPlayer_unique s hWF pid p hp r hrm hrp
        rw [hre, indicator_of_false p hr hb ft.opp] at hri
        exact Bool.false_ne_true hri
      refine ⟨r, ?_, hrpid, hri⟩
      rw [hplayers, mem_setPlayer]
      exact ⟨r, hrm, by simp [hrp]⟩
    · intro q hq hqi
      rw [hplayers, mem_setPlayer] at hq
      obtain ⟨r, hrm, hrq⟩ := hq
      rw [hflag_opp]
      by_cases hrp : r.pid = pid
      · rw [if_pos (by simp [hrp])] at hrq
        subst hrq
        rw [indicator_pickedPlayer_opp] at hqi
        exact absurd hqi (by simp)
      · rw [if_neg (by simp [hrp])] at hrq
        subst hrq
        exact (hconsOn ft.opp).2 r hrm hqi
  cases ft with
  | red => exact ⟨hmain, hopp⟩
  | blue => exact ⟨hopp, hmain⟩

theorem flagOf_stealSuccessState_same (s : GameState) (a d : Nat)
    (atk dfd : Player) (ft : Team) :
    flagOf (stealSuccessState s a d atk dfd ft) ft =
      { flagOf s ft with carrier := some atk.pid, x := atk.x, y := atk.y } := by
  simp only [stealSuccessState]
  rw [flagOf_setFlag_same]

theorem flagOf_stealSuccessState_ne (s : GameState) (a d : Nat)
    (atk dfd : Player) (ft u : Team) (h : u ≠ ft) :
    flagOf (stealSuccessState s a d atk dfd ft) u = flagOf s u := by
  simp only [stealSuccessState]
  rw [flagOf_setFlag_ne _ _ _ _ h, flagOf_setPlayer, flagOf_setPlayer]

theorem players_stealSuccessState (s : GameState) (a d : Nat)
    (atk dfd : Player) (ft : Team) :
    (stealSuccessState s a d atk dfd ft).players =
      (setPlayer (setPlayer s d { dfd with red := false, blue := false }) a
        { atk with
            red := decide (ft = Team.red)
            blue := decide (ft = Team.blue) }).players := by
  simp only [stealSuccessState]
  rw [players_setFlag]

theorem carrierConsistent_stealSuccess (s : GameState) (a d : Nat)
    (atk dfd : Player) (ft : Team) (hWF : WF s)
    (hcons : carrierConsistent s)
    (ha : getPlayer s a = some atk) (hd : getPlayer s d = some dfd)
    (hne : a ≠ d) (har : atk.red = false) (hab : atk.blue = false)
    (hdopp : indicator dfd ft.opp = false) (hi : indicator dfd ft = true) :
    carrierConsistent (stealSuccessState s a d atk dfd ft) := by
  have hapid := getPlayer_pid s a atk ha
  have hdpid := getPlayer_pid s d dfd hd
  have hamem := getPlayer_mem s a atk ha
  have hdmem := getPlayer_mem s d dfd hd
  have hconsOn : ∀ t, flagConsistent s t := by
    intro t
    cases t
    · exact hcons.1
    · exact hcons.2
  have hplayers := players_stealSuccessState s a d atk dfd ft
  have hcar : (flagOf (stealSuccessState s a d atk dfd ft) ft).carrier =
      some atk.pid := by
    rw [flagOf_stealSuccessState_same]
  have hflag_opp := flagOf_stealSuccessState_ne s a d atk dfd ft ft.opp
    (Team.opp_ne ft)
  have hatkft : indicator ({ atk with
      red := decide (ft = Team.red)
      blue := decide (ft = Team.blue) } : Player) ft = true := by
    cases ft <;> simp [indicator]
  have hatkopp : indicator ({ atk with
      red := decide (ft = Team.red)
      blue := decide (ft = Team.blue) } : Player) ft.opp = false := by
    cases ft <;> simp [indicator, Team.opp]
  -- decompose membership in the post-steal player list
  have hmem_cases : ∀ q, q ∈ (stealSuccessState s a d atk dfd ft).players →
      q = ({ dfd with red := false, blue := false } : Player) ∨
      q = ({ atk with
              red := decide (ft = Team.red)
              blue := decide (ft = Team.blue) } : Player) ∨
      (q ∈ s.players ∧ q.pid ≠ d ∧ q.pid ≠ a) := by
    intro q hq
    rw [hplayers, mem_setPlayer] at hq
    obtain ⟨r1, hr1, himg2⟩ := hq
    rw [mem_setPlayer] at hr1
    obtain ⟨r, hr, himg1⟩ := hr1
    by_cases hrd : r.pid = d
    · left
      rw [if_pos (by simp [hrd])] at himg1
      rw [← himg1] at himg2
      rw [if_neg (by simp [hdpid, Ne.symm hne])] at himg2
      rw [← himg2, himg1]
    · rw [if_neg (by simp [hrd])] at himg1
      subst himg1
      by_cases hra : r.pid = a
      · right; left
        rw [if_pos (by simp [hra])] at himg2
        exact himg2.symm
      · right; right
        rw [if_neg (by simp [hra])] at himg2
        subst himg2
        exact ⟨hr, hrd, hra⟩
  -- membership of survivors in the post-steal list
  have hmem_keep : ∀ r ∈ s.players, r.pid ≠ d → r.pid ≠ a →
      r ∈ (stealSuccessState s a d atk dfd ft).players := by
    intro r hr hrd hra
    rw [hplayers, mem_setPlayer]
    refine ⟨r, ?_, by simp [hra]⟩
    rw [mem_setPlayer]
    exact ⟨r, hr, by simp [hrd]⟩
  have hmem_atk : ({ atk with
      red := decide (ft = Team.red)
      blue := decide (ft = Team.blue) } : Player) ∈
      (stealSuccessState s a d atk dfd ft).players := by
    rw [hplayers, mem_setPlayer]
    refine ⟨atk, ?_, by simp [hapid]⟩
    rw [mem_setPlayer]
    exact ⟨atk, hamem, by simp [hapid, hne]⟩
  have hmain : flagConsistent (stealSuccessState s a d atk dfd ft) ft := by
    constructor
    · intro c hcc
      rw [Option.mem_def, hcar] at hcc
      obtain rfl := Option.some.inj hcc
      exact ⟨_, hmem_atk, rfl, hatkft⟩
    · intro q hq hqi
      rw [hcar]
      rcases hmem_cases q hq with hq' | hq' | ⟨hqmem, hqd, hqa⟩
      · rw [hq'] at hqi
        rw [indicator_of_false _ rfl rfl ft] at hqi
        exact absurd hqi (by simp)
      · rw [hq']
      · have hqc := (hconsOn ft).2 q hqmem hqi
        have hdc := (hconsOn ft).2 dfd hdmem hi
        rw [hqc] at hdc
        have : q.pid = dfd.pid := Option.some.inj hdc
        rw [hdpid] at this
        exact absurd this hqd
  have hopp : flagConsistent (stealSuccessState s a d atk dfd ft) ft.opp := by
    constructor
    · intro c hcc
      rw [Option.mem_def, hflag_opp] at hcc
      obtain ⟨r, hrm, hrpid, hri⟩ := (hconsOn ft.opp).1 c (by
        rw [Option.mem_def]
        exact hcc)
      have hrd : r.pid ≠ d := by
        intro hrd
        have : r = dfd := getPlayer_unique s hWF d dfd hd r hrm hrd
        rw [this, hdopp] at hri
        exact Bool.false_ne_true hri
      have hra : r.pid ≠ a := by
        intro hra
        have : r = atk := getPlayer_unique s hWF a atk ha r hrm hra
        rw [this, indicator_of_false atk har hab ft.opp] at hri
        exact Bool.false_ne_true hri
      exact ⟨r, hmem_keep r hrm hrd hra, hrpid, hri⟩
    · intro q hq hqi
      rw [hflag_opp]
      rcases hmem_cases q hq with hq' | hq' | ⟨hqmem, -, -⟩
      · rw [hq', indicator_of_false _ rfl rfl ft.opp] at hqi
        exact absurd hqi (by simp)
      · rw [hq', hatkopp] at hqi
        exact absurd hqi (by simp)
      · exact (hconsOn ft.opp).2 q hqmem hqi
  cases ft with
  | red => exact ⟨hmain, hopp⟩
  | blue => exact ⟨hopp, hmain⟩

theorem attempt_pickup_preserves (s : GameState) (pid : Nat) (hWF : WF s)
    (hcons : carrierConsistent s)
    (hfree : ∀ p, getPlayer s pid = some p → p.red = false ∧ p.blue = false) :
    carrierConsistent (attempt_pickup pid s) := by
  cases hg : getPlayer s pid with
  | none =>
    rw [attempt_pickup_none s pid hg]
    exact hcons
  | some p =>
    obtain ⟨hr, hb⟩ := hfree p hg
    rw [attempt_pickup_eq s pid p hWF hg]
    rcases tryPickupFlag_cases pid p.team.opp s with h | ⟨q, hq, -, hc, -, hsucc⟩
    · rw [h]
      exact hcons
    · rw [hg] at hq
      obtain rfl := Option.some.inj hq
      rw [hsucc]
      exact carrierConsistent_pickupSuccess s pid p p.team.opp hWF hcons hg
        hr hb hc

theorem attempt_steal_preserves (s : GameState) (a d : Nat) (ft : Team)
    (draw : ℚ) (hWF : WF s) (hcons : carrierConsistent s)
    (hafree : ∀ p, getPlayer s a = some p → p.red = false ∧ p.blue = false)
    (hdfree : ∀ p, getPlayer s d = some p → indicator p ft.opp = false) :
    carrierConsistent (attempt_steal a d ft draw s) := by
  rcases attempt_steal_cases s a d ft draw with
    h | ⟨atk, dfd, ha, hd, hi, ht, -, hsucc⟩
  · rw [h]
    exact hcons
  · have hne : a ≠ d := by
      rintro rfl
      rw [ha] at hd
      exact ht (congrArg Player.team (Option.some.inj hd))
    obtain ⟨har, hab⟩ := hafree atk ha
    rw [hsucc]
    exact carrierConsistent_stealSuccess s a d atk dfd ft hWF hcons ha hd hne
      har hab (hdfree dfd hd) hi

/-- Counterexample to C1: `stOwnCarry` satisfies the carrier-consistency
invariant (red player 1 carries the red flag, obtained by stealing it
back), yet the pickup of the blue flag — one of the claim's four
operations — leaves a state that violates it: the pickup clears the
player's red indicator while the red flag's carrier still names them. -/
theorem carrier_invariant_cex :
    WF stOwnCarry ∧ carrierConsistent stOwnCarry ∧
      ¬ carrierConsistent (attempt_pickup 1 stOwnCarry) := by
  refine ⟨by decide, by decide, ?_⟩
  rw [attempt_pickup_success_eq stOwnCarry 1 pOwnCarry (by decide) (by decide)
    (by decide)
    (by norm_num [pOwnCarry, stOwnCarry, flagOf, initBlueFlag, spawnFlag,
      PICKUP_RADIUS, Team.opp])]
  decide

/-- C1 amended: the scoring evaluation preserves the carrier-consistency
invariant unconditionally, and removal preserves it for well-formed
states; pickup preserves it provided the requester carries no flag, and
steal provided the attacker carries no flag and the defender does not
carry the other flag.  (Without those provisos the blanket
indicator-clearing of the success branches can orphan the other flag's
carrier, as `carrier_invariant_cex` shows.) -/
theorem carrier_invariant_preservation :
    (∀ (s : GameState) (pid : Nat), WF s → carrierConsistent s →
      (∀ p, getPlayer s pid = some p → p.red = false ∧ p.blue = false) →
      carrierConsistent (attempt_pickup pid s)) ∧
    (∀ (s : GameState) (a d : Nat) (ft : Team) (draw : ℚ), WF s →
      carrierConsistent s →
      (∀ p, getPlayer s a = some p → p.red = false ∧ p.blue = false) →
      (∀ p, getPlayer s d = some p → indicator p ft.opp = false) →
      carrierConsistent (attempt_steal a d ft draw s)) ∧
    (∀ st : ServerState, carrierConsistent st.game →
      carrierConsistent (check_score st).game) ∧
    (∀ (s : GameState) (pid : Nat), WF s → carrierConsistent s →
      carrierConsistent (remove_player pid s)) :=
  ⟨fun s pid hWF hcons hfree => attempt_pickup_preserves s pid hWF hcons hfree,
    fun s a d ft draw hWF hcons hafree hdfree =>
      attempt_steal_preserves s a d ft draw hWF hcons hafree hdfree,
    fun st hcons => check_score_preserves st hcons,
    fun s pid hWF hcons => remove_player_preserves s pid hWF hcons⟩

/-- Witness for the amended C1: all four operations evaluated on concrete
consistent states. -/
theorem carrier_invariant_preservation_witness :
    carrierConsistent (attempt_pickup 1 stBoundary) ∧
      carrierConsistent (attempt_steal 1 2 Team.red 0 stStealFar) ∧
      carrierConsistent (check_score svScore).game ∧
      carrierConsistent (remove_player 1 stScore) :=
  ⟨carrier_invariant_preservation.1 stBoundary 1 (by decide) (by decide)
      (by
        intro p hp
        rw [(by decide : getPlayer stBoundary 1 = some pBoundary)] at hp
        cases Option.some.inj hp
        exact ⟨rfl, rfl⟩),
    carrier_invariant_preservation.2.1 stStealFar 1 2 Team.red 0 (by decide)
      (by decide)
      (by
        intro p hp
        rw [(by decide : getPlayer stStealFar 1 = some pAtkFar)] at hp
        cases Option.some.inj hp
        exact ⟨rfl, rfl⟩)
      (by
        intro p hp
        rw [(by decide : getPlayer stStealFar 2 = some pDefFar)] at hp
        cases Option.some.inj hp
        exact rfl),
    carrier_invariant_preservation.2.2.1 svScore (by decide),
    carrier_invariant_preservation.2.2.2 stScore 1 (by decide) (by decide)⟩

/-! ### The game loop and the win condition -/

theorem scoreOf_update_flags (g : GameState) (t : Team) :
    scoreOf (update_flags g) t = scoreOf g t := by
  cases t <;> rfl

theorem scoreOf_handle_inputs (pid : Nat) (k : MoveKeys) (g : GameState)
    (t : Team) : scoreOf (handle_inputs pid k g) t = scoreOf g t := by
  unfold handle_inputs
  cases hg : getPlayer g pid with
  | none => rfl
  | some p => exact scoreOf_setPlayer g pid _ t

theorem scoreOf_tryPickupFlag (pid : Nat) (ft : Team) (g : GameState)
    (t : Team) : scoreOf (tryPickupFlag pid ft g) t = scoreOf g t := by
  rcases tryPickupFlag_cases pid ft g with h | ⟨p, -, -, -, -, h⟩ <;> rw [h]
  simp only [pickupSuccessState]
  rw [scoreOf_setFlag, scoreOf_setPlayer]

theorem scoreOf_attempt_pickup (pid : Nat) (g : GameState) (t : Team) :
    scoreOf (attempt_pickup pid g) t = scoreOf g t := by
  unfold attempt_pickup
  cases hg : getPlayer g pid with
  | none => rfl
  | some p => rw [scoreOf_tryPickupFlag, scoreOf_tryPickupFlag]

theorem scoreOf_attempt_steal (a d : Nat) (ft : Team) (draw : ℚ)
    (g : GameState) (t : Team) :
    scoreOf (attempt_steal a d ft draw g) t = scoreOf g t := by
  rcases attempt_steal_cases g a d ft draw with
    h | ⟨atk, dfd, -, -, -, -, -, h⟩ <;> rw [h]
  simp only [stealSuccessState]
  rw [scoreOf_setFlag, scoreOf_setPlayer, scoreOf_setPlayer]

theorem scoreOf_remove_player (pid : Nat) (g : GameState) (t : Team) :
    scoreOf (remove_player pid g) t = scoreOf g t := by
  unfold remove_player
  cases hg : getPlayer g pid with
  | none => rfl
  | some p =>
    by_cases hr : p.red <;> by_cases hb : p.blue <;> cases t <;>
      simp [scoreOf, hr, hb]

theorem scoreOf_applyEv (g : GameState) (e : Ev) (t : Team) :
    scoreOf (applyEv g e) t = scoreOf g t := by
  cases e with
  | move pid k => exact scoreOf_handle_inputs pid k g t
  | pickupReq pid => exact scoreOf_attempt_pickup pid g t
  | stealReq a d ft draw => exact scoreOf_attempt_steal a d ft draw g t
  | leave pid => exact scoreOf_remove_player pid g t

theorem scoreOf_applyEvs (g : GameState) (evs : List Ev) (t : Team) :
    scoreOf (applyEvs g evs) t = scoreOf g t := by
  induction evs generalizing g with
  | nil => rfl
  | cons e evs ih =>
    rw [applyEvs, List.foldl_cons]
    rw [show List.foldl applyEv (applyEv g e) evs = applyEvs (applyEv g e) evs
      from rfl]
    rw [ih (applyEv g e), scoreOf_applyEv]

theorem check_score_mono (st : ServerState) (t : Team) :
    scoreOf st.game t ≤ scoreOf (check_score st).game t := by
  rcases checkScoreAux_cases st st.game.players with h | ⟨p, -, -, h⟩
  · rw [show check_score st = st from h]
  · rw [show check_score st = applyScore st p from h, applyScore_game,
      scoreOf_resetAll]
    by_cases ht : t = p.team
    · subst ht
      rw [scoreOf_addScore_same]
      exact Nat.le_add_right _ _
    · rw [scoreOf_addScore_ne _ _ _ _ ht]

theorem tick_not_running (evs : List Ev) (st : ServerState)
    (h : st.running = false) : tick evs st = st := by
  unfold tick
  rw [h]
  rfl

theorem runTicks_not_running (st : ServerState) (trace : List (List Ev))
    (h : st.running = false) : runTicks st trace = st := by
  induction trace with
  | nil => rfl
  | cons evs rest ih =>
    rw [runTicks, tick_not_running evs st h]
    exact ih

theorem tick_mono (evs : List Ev) (st : ServerState) (t : Team) :
    scoreOf st.game t ≤ scoreOf (tick evs st).game t := by
  unfold tick
  by_cases h : st.running = true
  · rw [if_pos h]
    calc scoreOf st.game t
        = scoreOf ({ st with
            game := update_flags (applyEvs st.game evs) } : ServerState).game
            t := by
          rw [show ({ st with
              game := update_flags (applyEvs st.game evs) } :
              ServerState).game = update_flags (applyEvs st.game evs) from rfl,
            scoreOf_update_flags, scoreOf_applyEvs]
      _ ≤ _ := check_score_mono _ t
  · rw [if_neg h]

theorem runTicks_mono (st : ServerState) (trace : List (List Ev)) (t : Team) :
    scoreOf st.game t ≤ scoreOf (runTicks st trace).game t := by
  induction trace generalizing st with
  | nil => exact le_refl _
  | cons evs rest ih =>
    rw [runTicks]
    exact le_trans (tick_mono evs st t) (ih (tick evs st))

theorem check_score_crossing (st : ServerState) (t : Team)
    (hlt : scoreOf st.game t < SCORE_TO_WIN)
    (hge : SCORE_TO_WIN ≤ scoreOf (check_score st).game t) :
    (check_score st).overMsgs = st.overMsgs ++ [t] ∧
      (check_score st).running = false := by
  rcases checkScoreAux_cases st st.game.players with h | ⟨p, -, -, h⟩
  · rw [show check_score st = st from h] at hge
    exact absurd hge (not_le.mpr hlt)
  · have heq : check_score st = applyScore st p := h
    have htp : t = p.team := by
      by_contra hne
      rw [heq, applyScore_game, scoreOf_resetAll,
        scoreOf_addScore_ne _ _ _ _ hne] at hge
      exact absurd hge (not_le.mpr hlt)
    subst htp
    rw [heq, applyScore_game, scoreOf_resetAll, scoreOf_addScore_same] at hge
    obtain ⟨ho, hr⟩ := applyScore_win st p hge
    rw [heq]
    exact ⟨ho, hr⟩

theorem GoodOver_check_score_of_running (st : ServerState)
    (hover : st.overMsgs = []) :
    GoodOver (check_score st) := by
  rcases checkScoreAux_cases st st.game.players with hc | ⟨p, -, -, hc⟩
  · rw [show check_score st = st from hc]
    exact ⟨fun _ => hover, by rw [hover]; simp⟩
  · have heq : check_score st = applyScore st p := hc
    rw [heq]
    by_cases hw : SCORE_TO_WIN ≤ scoreOf st.game p.team + carriedCount p
    · obtain ⟨ho, hr⟩ := applyScore_win st p hw
      constructor
      · intro hrt
        rw [hr] at hrt
        exact absurd hrt (by simp)
      · rw [ho, hover]
        simp
    · obtain ⟨ho, hr⟩ := applyScore_no_win st p hw
      constructor
      · intro _
        rw [ho, hover]
      · rw [ho, hover]
        simp

theorem tick_GoodOver (evs : List Ev) (st : ServerState) (h : GoodOver st) :
    GoodOver (tick evs st) := by
  by_cases hrun : st.running = true
  · have hover : st.overMsgs = [] := h.1 hrun
    unfold tick
    rw [if_pos hrun]
    exact GoodOver_check_score_of_running
      { st with game := update_flags (applyEvs st.game evs) } hover
  · have hfalse : st.running = false := by
      revert hrun
      cases st.running <;> simp
    rw [tick_not_running evs st hfalse]
    exact h

theorem runTicks_GoodOver (st : ServerState) (trace : List (List Ev))
    (h : GoodOver st) : GoodOver (runTicks st trace) := by
  induction trace generalizing st with
  | nil => exact h
  | cons evs rest ih =>
    rw [runTicks]
    exact ih (tick evs st) (tick_GoodOver evs st h)

/-- C6: once a team's score reaches `SCORE_TO_WIN` during a scoring
evaluation, the `over` broadcast naming that team is emitted and the loop
flag is cleared, after which no further tick has any effect (so no later
score increment or second broadcast is observable); scores are monotone
non-decreasing along every run (they are naturals, hence non-negative);
and the at-most-one-`over` discipline is preserved by every tick. -/
theorem win_terminal_spec :
    (∀ (st : ServerState) (trace : List (List Ev)), st.running = false →
      runTicks st trace = st) ∧
    (∀ (st : ServerState) (trace : List (List Ev)) (t : Team),
      scoreOf st.game t ≤ scoreOf (runTicks st trace).game t) ∧
    (∀ (st : ServerState) (t : Team),
      scoreOf st.game t < SCORE_TO_WIN →
      SCORE_TO_WIN ≤ scoreOf (check_score st).game t →
      (check_score st).overMsgs = st.overMsgs ++ [t] ∧
        (check_score st).running = false ∧
        ∀ trace : List (List Ev),
          runTicks (check_score st) trace = check_score st) ∧
    ∀ (st : ServerState) (trace : List (List Ev)), GoodOver st →
      GoodOver (runTicks st trace) := by
  refine ⟨runTicks_not_running, runTicks_mono, ?_, runTicks_GoodOver⟩
  intro st t hlt hge
  obtain ⟨ho, hr⟩ := check_score_crossing st t hlt hge
  exact ⟨ho, hr, fun trace => runTicks_not_running _ trace hr⟩

/-- Witness for C6: in `svNearWin` red is one point from the threshold and
player 1 scores; the evaluation emits the `over` message naming red and
stops the loop, a stopped server is inert, and the `over` discipline
survives a run. -/
theorem win_terminal_spec_witness :
    runTicks svStopped [[]] = svStopped ∧
      (check_score svNearWin).overMsgs = svNearWin.overMsgs ++ [Team.red] ∧
      (check_score svNearWin).running = false ∧
      GoodOver (runTicks svNearWin [[]]) := by
  have heq : check_score svNearWin = applyScore svNearWin pScorer :=
    checkScoreAux_first svNearWin [] [] pScorer (by simp) (by
      simp only [eligible, Bool.and_eq_true, decide_eq_true_eq]
      refine ⟨by decide, ?_⟩
      norm_num [pScorer, svNearWin, stNearWin, stScore, flagOf, initRedFlag,
        spawnFlag, BASE_RADIUS])
  obtain ⟨ho, hr, -⟩ := win_terminal_spec.2.2.1 svNearWin Team.red (by decide)
    (by rw [heq]; decide)
  exact ⟨win_terminal_spec.1 svStopped [[]] (by decide), ho, hr,
    win_terminal_spec.2.2.2 svNearWin [[]] (by decide)⟩

/-- Witness for the amended C9: a valid steal line, then a malformed line,
then a valid pickup line — the steal is processed, the disconnect is
enqueued, the pickup is dropped. -/
theorem processFrames_spec_witness :
    processFrames [Frame.valid (ClientMsg.stealMsg 2 Team.red),
        Frame.malformed, Frame.valid ClientMsg.pickupMsg] =
      ([LEvent.didSteal 2 Team.red, LEvent.queued ClientMsg.disconnect],
        false) := by
  have h := processFrames_spec.2 [Frame.valid (ClientMsg.stealMsg 2 Team.red)]
    [Frame.valid ClientMsg.pickupMsg] (by simp)
  simpa using h

end CTF
